import Mathlib

/-!
# Ravencoin message RPCs: overlay reconciliation and the IPFS gate

A shallow embedding of `src/rpc/messages.cpp`:

* `viewallmessages` merges the messages loaded from the message database with
  the three dirty caches `mapDirtyMessagesOrphaned`, `setDirtyMessagesRemove`
  and `mapDirtyMessagesAdd`;
* `viewallmessagechannels` merges the subscribed channels with
  `setDirtyChannelsRemove` and `setDirtyChannelsAdd`;
* `addipfsdata` submits data to the local IPFS node behind the
  `globalIpfsState` gate.

`std::set` and `std::map` are embedded as lists kept strictly ascending in the
key the container compares on, which is what iterating the container yields.
-/

namespace Ravencoin

/-! ## `std::set` -/

section StdSet

variable {α κ : Type} [LinearOrder κ]

/-- The class invariant of a `std::set`: iterating it yields the elements in
strictly ascending order of the comparator, here `key a < key b`. -/
def IsStdSet (key : α → κ) (s : List α) : Prop :=
  s.Pairwise (fun a b => key a < key b)

instance IsStdSet.instDecidable (key : α → κ) (s : List α) : Decidable (IsStdSet key s) := by
  unfold IsStdSet
  infer_instance

/-- Member `std::set::count(x)`: the number of elements equivalent to `x` (neither
compares less than the other). -/
def setCount (key : α → κ) (x : α) (s : List α) : Nat :=
  (s.filter (fun y => decide (key y = key x))).length

/-- Member `std::set::erase(x)`: removes the elements equivalent to `x`. -/
def setErase (key : α → κ) (x : α) (s : List α) : List α :=
  s.filter (fun y => decide (key y ≠ key x))

/-- Member `std::set::insert(x)`: walks to the position of `x`; when an equivalent
element is already there the set is left as it is, otherwise `x` is linked in
at that position. -/
def setInsert (key : α → κ) (x : α) : List α → List α
  | [] => [x]
  | y :: ys =>
    if key x < key y then x :: y :: ys
    else if key y < key x then y :: setInsert key x ys
    else y :: ys

/-- The element of the set equivalent to key `k`, if any (`std::set::find`). -/
def setFind (key : α → κ) (k : κ) (s : List α) : Option α :=
  s.find? (fun y => decide (key y = k))

/-- What a run of keyed point updates leaves at key `k`: every entry `b` of `l`
filed under `k` overwrites the current content with `vf b`; `acc` is the
content before the run. Used to read a set after a loop of erase / insert. -/
def overlayAt {β : Type} (k : κ) (kf : β → κ) (vf : β → Option α) (l : List β)
    (acc : Option α) : Option α :=
  l.foldl (fun acc b => if k = kf b then vf b else acc) acc

end StdSet

/-! ## Messages -/

/-- Enumeration `MessageStatus`; the names are those listed by the help text of
`viewallmessages`. -/
inductive MessageStatus where
  | READ
  | UNREAD
  | EXPIRED
  | SPAM
  | HIDDEN
  | ORPHAN
  | ERROR
  deriving DecidableEq

/-- Class `CMessage`, with the fields `viewallmessages` reads. The type of the
output reference (`COutPoint`) is a parameter. -/
structure CMessage (OutPoint : Type) where
  out : OutPoint
  strName : String
  ipfsHash : String
  time : Int
  nExpiredTime : Int
  status : MessageStatus
  nBlockHeight : Int
  deriving DecidableEq

section Messages

variable {OutPoint : Type} [LinearOrder OutPoint]

/-- Modelled from the spec: `CMessage::operator<` is declared in
`assets/messages.h`, which is not among the sources. Two message records are
the same logical record iff their output references match, so the comparator
of `std::set<CMessage>` compares the `out` field only. -/
def CMessage.key (m : CMessage OutPoint) : OutPoint := m.out

/-- Modelled from the spec: the default constructor `CMessage()` is declared
in `assets/messages.h`, which is not among the sources. `CMessage message;
message.out = out;` gives a record whose only field the comparator reads is
`out`; the other fields are blank. -/
def CMessage.probe (out : OutPoint) : CMessage OutPoint :=
  { out := out, strName := "", ipfsHash := "", time := 0, nExpiredTime := 0,
    status := MessageStatus.ERROR, nBlockHeight := 0 }

/-- The state a `std::map<COutPoint, CMessage>` can be in: entries strictly
ascending in the map key. -/
def IsStdMap {β : Type} (m : List (OutPoint × β)) : Prop :=
  m.Pairwise (fun a b => a.1 < b.1)

instance IsStdMap.instDecidable {β : Type} (m : List (OutPoint × β)) :
    Decidable (IsStdMap m) := by
  unfold IsStdMap
  infer_instance

/-- Every record of a dirty map is filed under its own output reference: the
records of the map are identified by `out` only. -/
def KeyedByOut (m : List (OutPoint × CMessage OutPoint)) : Prop :=
  ∀ p ∈ m, p.2.out = p.1

instance KeyedByOut.instDecidable (m : List (OutPoint × CMessage OutPoint)) :
    Decidable (KeyedByOut m) := by
  unfold KeyedByOut
  infer_instance

/-- The output reference is unique per record: no two records of the dirty
map have the same `out`. -/
def UniqueOuts (m : List (OutPoint × CMessage OutPoint)) : Prop :=
  (m.map (fun p => p.2.out)).Nodup

instance UniqueOuts.instDecidable (m : List (OutPoint × CMessage OutPoint)) :
    Decidable (UniqueOuts m) := by
  unfold UniqueOuts
  infer_instance

/-- Body of the loop over `mapDirtyMessagesOrphaned` (lines 78-84). -/
def orphanStep (setMessages : List (CMessage OutPoint))
    (pair : OutPoint × CMessage OutPoint) : List (CMessage OutPoint) :=
  let message : CMessage OutPoint := { pair.2 with status := MessageStatus.ORPHAN }
  let setMessages :=
    if setCount CMessage.key message setMessages ≠ 0 then
      setErase CMessage.key message setMessages
    else setMessages
  setInsert CMessage.key message setMessages

/-- Body of the loop over `setDirtyMessagesRemove` (lines 86-90). -/
def removeStep (setMessages : List (CMessage OutPoint)) (out : OutPoint) :
    List (CMessage OutPoint) :=
  let message : CMessage OutPoint := CMessage.probe out
  setErase CMessage.key message setMessages

/-- Body of the loop over `mapDirtyMessagesAdd` (lines 92-95). -/
def addStep (setMessages : List (CMessage OutPoint))
    (pair : OutPoint × CMessage OutPoint) : List (CMessage OutPoint) :=
  let setMessages := setErase CMessage.key pair.2 setMessages
  setInsert CMessage.key pair.2 setMessages

/-- The set `setMessages` of `viewallmessages` after line 95: `loaded` is what
`pmessagedb->LoadMessages` put into the empty set, the other arguments are the
three dirty caches in iteration order. -/
def mergedMessages (loaded : List (CMessage OutPoint))
    (mapDirtyMessagesOrphaned : List (OutPoint × CMessage OutPoint))
    (setDirtyMessagesRemove : List OutPoint)
    (mapDirtyMessagesAdd : List (OutPoint × CMessage OutPoint)) :
    List (CMessage OutPoint) :=
  let setMessages := loaded
  let setMessages := mapDirtyMessagesOrphaned.foldl orphanStep setMessages
  let setMessages := setDirtyMessagesRemove.foldl removeStep setMessages
  mapDirtyMessagesAdd.foldl addStep setMessages

end Messages

/-! ## Channels -/

/-- The set `setChannels` of `viewallmessagechannels` after line 155: `loaded`
is what `pmessagechanneldb->LoadMyMessageChannels` put into the empty set; the
comparator of `std::set<std::string>` is the order of strings. -/
def mergedChannels (loaded setDirtyChannelsRemove setDirtyChannelsAdd : List String) :
    List String :=
  let setChannels := loaded
  let setChannels :=
    setDirtyChannelsRemove.foldl (fun setChannels name => setErase id name setChannels)
      setChannels
  setDirtyChannelsAdd.foldl (fun setChannels name => setInsert id name setChannels)
    setChannels

/-- The entries of the array `channels` that `viewallmessagechannels` returns
(lines 157-163): one `push_back` per name of the merged set, in set order. -/
def viewallmessagechannelsNames
    (loaded setDirtyChannelsRemove setDirtyChannelsAdd : List String) : List String :=
  (mergedChannels loaded setDirtyChannelsRemove setDirtyChannelsAdd).foldl
    (fun channels name => channels ++ [name]) []

/-! ## The IPFS gate -/

/-- Modelled from the spec: `enum IPFS_STATE` is declared in `assets/ipfs.h`,
which is not among the sources; only `DAEMON_CLIENT_CONNECTED` is named in
`messages.cpp`. The other values are the spec's lifecycle states. -/
inductive IPFS_STATE where
  | NOT_RUNNING
  | STARTING
  | DAEMON_CLIENT_CONNECTED
  | STOPPING
  | ERROR (reason : String)
  deriving DecidableEq

/-- The RPC error codes `messages.cpp` throws with. -/
inductive RPCErrorCode where
  | RPC_INVALID_REQUEST
  | RPC_INTERNAL_ERROR
  | RPC_INVALID_PARAMETER
  | RPC_DATABASE_ERROR
  deriving DecidableEq

/-- What an RPC handler throws: `std::runtime_error` with the usage text of
the command (`help`), `std::runtime_error` from the JSON accessors, or
`JSONRPCError(code, message)`. -/
inductive RpcException where
  | help (command : String)
  | runtime_error (what : String)
  | JSONRPCError (code : RPCErrorCode) (message : String)
  deriving DecidableEq

/-- A JSON value as the handlers see it. -/
inductive UniValue where
  | VNULL
  | VSTR (s : String)
  | VNUM (n : Int)
  | VBOOL (b : Bool)
  | VARR (values : List UniValue)
  | VOBJ (entries : List (String × UniValue))

/-- What the rendering loop of `viewallmessages` calls and `messages.cpp` does
not define: `EncodeIPFS`, `DateTimeStrFormat` and `MessageStatusToString`. -/
structure MessageExternals where
  EncodeIPFS : String → String
  DateTimeStrFormat : String → Int → String
  MessageStatusToString : MessageStatus → String

/-- The object `obj` built for one record (lines 100-108): five entries, and
`Expire Time` when `nExpiredTime` is non-zero. -/
def renderMessage {OutPoint : Type} (ext : MessageExternals) (message : CMessage OutPoint) :
    UniValue :=
  let obj : List (String × UniValue) := []
  let obj := obj ++ [("Asset Name", UniValue.VSTR message.strName)]
  let obj := obj ++ [("Message", UniValue.VSTR (ext.EncodeIPFS message.ipfsHash))]
  let obj := obj ++
    [("Time", UniValue.VSTR (ext.DateTimeStrFormat "%Y-%m-%d %H:%M:%S" message.time))]
  let obj := obj ++ [("Block Height", UniValue.VNUM message.nBlockHeight)]
  let obj := obj ++ [("Status", UniValue.VSTR (ext.MessageStatusToString message.status))]
  let obj :=
    if message.nExpiredTime ≠ 0 then
      obj ++ [("Expire Time",
        UniValue.VSTR (ext.DateTimeStrFormat "%Y-%m-%d %H:%M:%S" message.nExpiredTime))]
    else obj
  UniValue.VOBJ obj

/-- The entries of the array `messages` that `viewallmessages` returns (lines
97-113): one `push_back` per record of the merged set, in set order. -/
def viewallmessagesObjects {OutPoint : Type} (ext : MessageExternals)
    (setMessages : List (CMessage OutPoint)) : List UniValue :=
  setMessages.foldl (fun messages message => messages ++ [renderMessage ext message]) []

/-- Accessor `UniValue::get_str`: the text of a string value; any other value throws. -/
def UniValue.get_str : UniValue → Except RpcException String
  | UniValue.VSTR s => Except.ok s
  | _ => Except.error (RpcException.runtime_error "JSON value is not a string as expected")

/-- Class `JSONRPCRequest`, with the two fields the handlers read. -/
structure JSONRPCRequest where
  fHelp : Bool
  params : List UniValue

/-- Struct `AddResult`, of which `addipfsdata` reads `ipfsHash`. -/
structure AddResult where
  ipfsHash : String
  deriving DecidableEq

/-- A call that left the handler for the IPFS daemon. -/
inductive ExternalCall where
  | AddIpfsData (str : String)
  | PinIpfsFile (str : String)
  | LaunchDaemon
  deriving DecidableEq

/-- What `addipfsdata` uses and `messages.cpp` does not define: the constant
`MAX_IPFS_DATA_SIZE`, the daemon call `AddIpfsData(str, result)` (its `bool`
and the `result` it fills in) and the translation hook `_`. -/
structure IpfsExternals where
  MAX_IPFS_DATA_SIZE : Nat
  AddIpfsData : String → Bool × AddResult
  translate : String → String

/-- The process state the IPFS handlers run against: the flag `fIPFS`, the
lifecycle variable `globalIpfsState` (guarded by `cs_ipfs`), and the trace of
the calls made to the daemon so far. The daemon calls are taken as not writing
`globalIpfsState`. -/
structure IpfsWorld where
  fIPFS : Bool
  globalIpfsState : IPFS_STATE
  calls : List ExternalCall
  deriving DecidableEq

/-- The text of the error thrown when `fIPFS` is off (line 333). -/
def msgIpfsTurnedOff : String :=
  "Ipfs operations have been turned off on this client. Remove -noipfs from your raven.conf or command line call"

/-- The text of the error thrown when the daemon is not connected (line 339). -/
def msgIpfsNotRunning : String :=
  "Local Ipfs node is not running, to run it you must have ipfs install, and then use the command startipfsnode"

/-- The text of the error thrown for an oversized payload (line 348). -/
def msgIpfsDataTooLarge : String :=
  "Data to large to add via ravencoin. All data added is also pinned to the local ipfs node. This will help save storage."

/-- The text of the error thrown when the daemon call fails (line 353). -/
def msgIpfsAddFailed : String := "Failed to add data to ipfs"

/-- Handler `addipfsdata` (lines 315-357): the outcome of the handler and the process
state it leaves. `str.size()` is the number of bytes of the string. -/
def addipfsdata (ext : IpfsExternals) (request : JSONRPCRequest) (w : IpfsWorld) :
    Except RpcException UniValue × IpfsWorld :=
  if request.fHelp || request.params.length != 1 then
    (Except.error (RpcException.help "addipfsdata"), w)
  else if !w.fIPFS then
    (Except.error (RpcException.JSONRPCError RPCErrorCode.RPC_INVALID_REQUEST
      (ext.translate msgIpfsTurnedOff)), w)
  else if w.globalIpfsState != IPFS_STATE.DAEMON_CLIENT_CONNECTED then
    (Except.error (RpcException.JSONRPCError RPCErrorCode.RPC_INVALID_REQUEST
      (ext.translate msgIpfsNotRunning)), w)
  else
    match (request.params.getD 0 UniValue.VNULL).get_str with
    | Except.error e => (Except.error e, w)
    | Except.ok str =>
      if str.utf8ByteSize > ext.MAX_IPFS_DATA_SIZE then
        (Except.error (RpcException.JSONRPCError RPCErrorCode.RPC_INVALID_REQUEST
          (ext.translate msgIpfsDataTooLarge)), w)
      else
        let added := ext.AddIpfsData str
        let w := { w with calls := w.calls ++ [ExternalCall.AddIpfsData str] }
        if !added.1 then
          (Except.error (RpcException.JSONRPCError RPCErrorCode.RPC_INTERNAL_ERROR
            (ext.translate msgIpfsAddFailed)), w)
        else
          (Except.ok (UniValue.VSTR added.2.ipfsHash), w)

/-- A sample environment: a limit of three bytes, a daemon that accepts every
payload and names it by prefixing `Qm`, and no translation installed. -/
def sampleExternals : IpfsExternals :=
  { MAX_IPFS_DATA_SIZE := 3
    AddIpfsData := fun str => (true, { ipfsHash := "Qm" ++ str })
    translate := fun psz => psz }

/-- The request the RPC layer hands to `addipfsdata` for payload `data`. -/
def submitRequest (data : String) : JSONRPCRequest :=
  { fHelp := false, params := [UniValue.VSTR data] }

/-- What `pinipfshash` uses and `messages.cpp` does not define: the format
check `CheckIPFSHash(str, error)` (its `bool` and the `error` it fills in),
the daemon call `PinIpfsFile(str)` and the translation hook `_`. -/
structure PinExternals where
  CheckIPFSHash : String → Bool × String
  PinIpfsFile : String → Bool
  translate : String → String

/-- The text of the error thrown when pinning fails (line 395). -/
def msgIpfsPinFailed : String := "Failed to pin the file to ipfs"

/-- Handler `pinipfshash` (lines 359-397): the outcome of the handler and the
process state it leaves. -/
def pinipfshash (ext : PinExternals) (request : JSONRPCRequest) (w : IpfsWorld) :
    Except RpcException UniValue × IpfsWorld :=
  if request.fHelp || request.params.length != 1 then
    (Except.error (RpcException.help "pinipfshash"), w)
  else if !w.fIPFS then
    (Except.error (RpcException.JSONRPCError RPCErrorCode.RPC_INVALID_REQUEST
      (ext.translate msgIpfsTurnedOff)), w)
  else if w.globalIpfsState != IPFS_STATE.DAEMON_CLIENT_CONNECTED then
    (Except.error (RpcException.JSONRPCError RPCErrorCode.RPC_INVALID_REQUEST
      (ext.translate msgIpfsNotRunning)), w)
  else
    match (request.params.getD 0 UniValue.VNULL).get_str with
    | Except.error e => (Except.error e, w)
    | Except.ok str =>
      let checked := ext.CheckIPFSHash str
      if !checked.1 then
        (Except.error (RpcException.JSONRPCError RPCErrorCode.RPC_INVALID_PARAMETER
          checked.2), w)
      else
        let pinned := ext.PinIpfsFile str
        let w := { w with calls := w.calls ++ [ExternalCall.PinIpfsFile str] }
        if !pinned then
          (Except.error (RpcException.JSONRPCError RPCErrorCode.RPC_INTERNAL_ERROR
            msgIpfsPinFailed), w)
        else
          (Except.ok UniValue.VNULL, w)

/-- A sample environment for `pinipfshash`: a hash is well-formed when it is
46 bytes long, the daemon pins every file, no translation installed. -/
def samplePinExternals : PinExternals :=
  { CheckIPFSHash := fun str => (decide (str.utf8ByteSize = 46), "Invalid IPFS hash")
    PinIpfsFile := fun _ => true
    translate := fun psz => psz }

/-- Handler `getipfsnodestatus` (lines 292-313); `IPFSStateToString` is not
defined in `messages.cpp` and is a parameter. -/
def getipfsnodestatus (IPFSStateToString : IPFS_STATE → String) (request : JSONRPCRequest)
    (w : IpfsWorld) : Except RpcException UniValue × IpfsWorld :=
  if request.fHelp || request.params.length != 0 then
    (Except.error (RpcException.help "getipfsnodestatus"), w)
  else
    (Except.ok (UniValue.VSTR (IPFSStateToString w.globalIpfsState)), w)

/-- Modelled from the spec: `StartUpLocalIpfsNode` is defined in
`assets/ipfs.cpp`, which is not among the sources. Start is legal from
`NotRunning` or `Error` and moves the state to `Starting` (the daemon is
launched); called while already `Starting` or `DaemonConnected` it is a no-op;
from `Stopping` it is not legal and nothing happens. -/
def StartUpLocalIpfsNode (w : IpfsWorld) : IpfsWorld :=
  match w.globalIpfsState with
  | IPFS_STATE.NOT_RUNNING =>
    { w with globalIpfsState := IPFS_STATE.STARTING,
             calls := w.calls ++ [ExternalCall.LaunchDaemon] }
  | IPFS_STATE.ERROR _ =>
    { w with globalIpfsState := IPFS_STATE.STARTING,
             calls := w.calls ++ [ExternalCall.LaunchDaemon] }
  | _ => w

/-- Handler `startipfsnode` (lines 249-268). -/
def startipfsnode (request : JSONRPCRequest) (w : IpfsWorld) :
    Except RpcException UniValue × IpfsWorld :=
  if request.fHelp || request.params.length != 0 then
    (Except.error (RpcException.help "startipfsnode"), w)
  else
    (Except.ok UniValue.VNULL, StartUpLocalIpfsNode w)

/-- The request the RPC layer hands to a handler that takes no argument. -/
def emptyRequest : JSONRPCRequest :=
  { fHelp := false, params := [] }

/-! ## The message handlers as a whole -/

/-- Member `UniValue::push_back` of the univalue library (not among the
sources): it appends to an array; called on a value of any other type it
returns `false` and leaves the value as it is. -/
def UniValue.push_back (self val : UniValue) : UniValue :=
  match self with
  | UniValue.VARR values => UniValue.VARR (values ++ [val])
  | other => other

/-- A call that left a message handler for the message store. -/
inductive MessagingCall where
  | LoadMessages
  | LoadMyMessageChannels
  | AddChannel (name : String)
  | RemoveChannel (name : String)
  deriving DecidableEq

/-- The process state the message handlers run against: whether messaging is
deployed (`AreMessagingDeployed()`), the flag `fMessaging`, whether the four
pointers to the caches and databases are set, what the two databases hold, the
dirty caches in iteration order, and the trace of the calls made to the store
so far. What `AddChannel` and `RemoveChannel` write is outside `messages.cpp`;
the handlers that call them record the call. -/
structure MessagingWorld (OutPoint : Type) where
  messagingDeployed : Bool
  fMessaging : Bool
  pMessagesCache : Bool
  pmessagedb : Bool
  pMessageSubscribedChannelsCache : Bool
  pmessagechanneldb : Bool
  storedMessages : List (CMessage OutPoint)
  mapDirtyMessagesOrphaned : List (OutPoint × CMessage OutPoint)
  setDirtyMessagesRemove : List OutPoint
  mapDirtyMessagesAdd : List (OutPoint × CMessage OutPoint)
  storedChannels : List String
  setDirtyChannelsRemove : List String
  setDirtyChannelsAdd : List String
  calls : List MessagingCall

/-- The text pushed when `fMessaging` is off (lines 64, 133, 184, 226). -/
def msgMessagingDisabled : String :=
  "Messaging is disabled. To enable messaging, run the wallet without -disablemessaging or remove disablemessaging from your raven.conf"

/-- The text pushed when the message cache or database is missing (line 70). -/
def msgMessagesProblems : String :=
  "Messaging database and cache are having problems (a wallet restart might fix this issue)"

/-- The text pushed when the channel cache or database is missing (line 139). -/
def msgChannelsProblems : String :=
  "Messaging channel database and cache are having problems (a wallet restart might fix this issue)"

/-- The text of the error thrown when the channel store is missing (lines 188, 230). -/
def msgDatabaseNotSetup : String := "Message database isn't setup"

/-- The text of the error thrown for an invalid channel name (lines 196, 238). -/
def msgChannelNameNotValid : String := "Channel Name is not valid."

/-- The text of the error thrown for a name of the wrong asset type (lines 200, 242). -/
def msgChannelNameWrongType : String :=
  "Channel Name must must a owner asset, or a message channel asset e.g OWNER!, MSG_CHANNEL~123."

section Handlers

variable {OutPoint : Type} [LinearOrder OutPoint]

/-- Handler `viewallmessages` (lines 42-114): the outcome of the handler and
the process state it leaves. -/
def viewallmessages (ext : MessageExternals) (request : JSONRPCRequest)
    (w : MessagingWorld OutPoint) : Except RpcException UniValue × MessagingWorld OutPoint :=
  if request.fHelp || !w.messagingDeployed || request.params.length != 0 then
    (Except.error (RpcException.help "viewallmessages"), w)
  else if !w.fMessaging then
    let ret := UniValue.VSTR ""
    let ret := ret.push_back (UniValue.VSTR msgMessagingDisabled)
    (Except.ok ret, w)
  else if !w.pMessagesCache || !w.pmessagedb then
    let ret := UniValue.VSTR ""
    let ret := ret.push_back (UniValue.VSTR msgMessagesProblems)
    (Except.ok ret, w)
  else
    let setMessages := w.storedMessages
    let w := { w with calls := w.calls ++ [MessagingCall.LoadMessages] }
    let setMessages := w.mapDirtyMessagesOrphaned.foldl orphanStep setMessages
    let setMessages := w.setDirtyMessagesRemove.foldl removeStep setMessages
    let setMessages := w.mapDirtyMessagesAdd.foldl addStep setMessages
    let messages := UniValue.VARR []
    let messages := setMessages.foldl
      (fun messages message => messages.push_back (renderMessage ext message)) messages
    (Except.ok messages, w)

/-- Handler `viewallmessagechannels` (lines 116-164); the `LogPrintf` of line
147 writes to the log only. -/
def viewallmessagechannels (request : JSONRPCRequest) (w : MessagingWorld OutPoint) :
    Except RpcException UniValue × MessagingWorld OutPoint :=
  if request.fHelp || !w.messagingDeployed || request.params.length != 0 then
    (Except.error (RpcException.help "viewallmessagechannels"), w)
  else if !w.fMessaging then
    let ret := UniValue.VSTR ""
    let ret := ret.push_back (UniValue.VSTR msgMessagingDisabled)
    (Except.ok ret, w)
  else if !w.pMessageSubscribedChannelsCache || !w.pmessagechanneldb then
    let ret := UniValue.VSTR ""
    let ret := ret.push_back (UniValue.VSTR msgChannelsProblems)
    (Except.ok ret, w)
  else
    let setChannels := w.storedChannels
    let w := { w with calls := w.calls ++ [MessagingCall.LoadMyMessageChannels] }
    let setChannels :=
      w.setDirtyChannelsRemove.foldl (fun setChannels name => setErase id name setChannels)
        setChannels
    let setChannels :=
      w.setDirtyChannelsAdd.foldl (fun setChannels name => setInsert id name setChannels)
        setChannels
    let channels := UniValue.VARR []
    let channels := setChannels.foldl
      (fun channels name => channels.push_back (UniValue.VSTR name)) channels
    (Except.ok channels, w)

end Handlers

/-- Modelled from the spec: `enum class AssetType` is declared in
`assets/assettypes.h`, which is not among the sources; `messages.cpp` names
`OWNER` and `MSGCHANNEL`, the owner and the message-channel asset types. Any
other enumerator is `OTHER`. -/
inductive AssetType where
  | OWNER
  | MSGCHANNEL
  | OTHER (tag : Nat)
  deriving DecidableEq

/-- What the subscription handlers use and `messages.cpp` does not define:
`IsAssetNameValid(name, type)`, its `bool` and the `type` it fills in. -/
structure ChannelExternals where
  IsAssetNameValid : String → Bool × AssetType

/-- Handler `subscribetochannel` (lines 166-205): the outcome of the handler and the
process state it leaves. -/
def subscribetochannel {OutPoint : Type} (ext : ChannelExternals)
    (request : JSONRPCRequest) (w : MessagingWorld OutPoint) :
    Except RpcException UniValue × MessagingWorld OutPoint :=
  if request.fHelp || !w.messagingDeployed || request.params.length != 1 then
    (Except.error (RpcException.help "subscribetochannel"), w)
  else if !w.fMessaging then
    (Except.error (RpcException.JSONRPCError RPCErrorCode.RPC_DATABASE_ERROR
      msgMessagingDisabled), w)
  else if !w.pMessageSubscribedChannelsCache || !w.pmessagechanneldb then
    (Except.error (RpcException.JSONRPCError RPCErrorCode.RPC_DATABASE_ERROR
      msgDatabaseNotSetup), w)
  else
    match (request.params.getD 0 UniValue.VNULL).get_str with
    | Except.error e => (Except.error e, w)
    | Except.ok channel_name =>
      let valid := ext.IsAssetNameValid channel_name
      if !valid.1 then
        (Except.error (RpcException.JSONRPCError RPCErrorCode.RPC_INVALID_PARAMETER
          msgChannelNameNotValid), w)
      else if valid.2 != AssetType.OWNER && valid.2 != AssetType.MSGCHANNEL then
        (Except.error (RpcException.JSONRPCError RPCErrorCode.RPC_INVALID_PARAMETER
          msgChannelNameWrongType), w)
      else
        (Except.ok UniValue.VNULL,
          { w with calls := w.calls ++ [MessagingCall.AddChannel channel_name] })

/-- Handler `unsubscribefromchannel` (lines 208-247): the outcome of the handler and the
process state it leaves. -/
def unsubscribefromchannel {OutPoint : Type} (ext : ChannelExternals)
    (request : JSONRPCRequest) (w : MessagingWorld OutPoint) :
    Except RpcException UniValue × MessagingWorld OutPoint :=
  if request.fHelp || !w.messagingDeployed || request.params.length != 1 then
    (Except.error (RpcException.help "unsubscribefromchannel"), w)
  else if !w.fMessaging then
    (Except.error (RpcException.JSONRPCError RPCErrorCode.RPC_DATABASE_ERROR
      msgMessagingDisabled), w)
  else if !w.pMessageSubscribedChannelsCache || !w.pmessagechanneldb then
    (Except.error (RpcException.JSONRPCError RPCErrorCode.RPC_DATABASE_ERROR
      msgDatabaseNotSetup), w)
  else
    match (request.params.getD 0 UniValue.VNULL).get_str with
    | Except.error e => (Except.error e, w)
    | Except.ok channel_name =>
      let valid := ext.IsAssetNameValid channel_name
      if !valid.1 then
        (Except.error (RpcException.JSONRPCError RPCErrorCode.RPC_INVALID_PARAMETER
          msgChannelNameNotValid), w)
      else if valid.2 != AssetType.OWNER && valid.2 != AssetType.MSGCHANNEL then
        (Except.error (RpcException.JSONRPCError RPCErrorCode.RPC_INVALID_PARAMETER
          msgChannelNameWrongType), w)
      else
        (Except.ok UniValue.VNULL,
          { w with calls := w.calls ++ [MessagingCall.RemoveChannel channel_name] })

/-- A sample name check: a name ending in `!` is a valid owner asset, a name
with a `~` in it a valid message channel, a name of at least three characters
a valid asset of another type, anything else is invalid. -/
def sampleChannelExternals : ChannelExternals :=
  { IsAssetNameValid := fun name =>
      if name.toList.getLast? = some '!' then (true, AssetType.OWNER)
      else if '~' ∈ name.toList then (true, AssetType.MSGCHANNEL)
      else if 3 ≤ name.toList.length then (true, AssetType.OTHER 0)
      else (false, AssetType.OTHER 0) }

/-- A sample process state: messaging deployed and switched on, caches and
databases set up, nothing stored and nothing pending. -/
def sampleMessagingWorld : MessagingWorld Nat :=
  { messagingDeployed := true, fMessaging := true, pMessagesCache := true, pmessagedb := true,
    pMessageSubscribedChannelsCache := true, pmessagechanneldb := true,
    storedMessages := [], mapDirtyMessagesOrphaned := [], setDirtyMessagesRemove := [],
    mapDirtyMessagesAdd := [], storedChannels := [], setDirtyChannelsRemove := [],
    setDirtyChannelsAdd := [], calls := [] }

/-- The request the RPC layer hands to a channel handler for `name`. -/
def channelRequest (name : String) : JSONRPCRequest :=
  { fHelp := false, params := [UniValue.VSTR name] }

/-- A sample rendering environment: hashes are shown as stored, every time
as the epoch, and a status by its name. -/
def sampleMessageExternals : MessageExternals :=
  { EncodeIPFS := fun hash => hash
    DateTimeStrFormat := fun _ _ => "1970-01-01 00:00:00"
    MessageStatusToString := fun status =>
      match status with
      | MessageStatus.READ => "READ"
      | MessageStatus.UNREAD => "UNREAD"
      | MessageStatus.EXPIRED => "EXPIRED"
      | MessageStatus.SPAM => "SPAM"
      | MessageStatus.HIDDEN => "HIDDEN"
      | MessageStatus.ORPHAN => "ORPHAN"
      | MessageStatus.ERROR => "ERROR" }

/-! ## Facts about the `std::set` embedding -/

section StdSetLemmas

variable {α κ : Type} [LinearOrder κ] (key : α → κ)

theorem setFind_cons (k : κ) (y : α) (ys : List α) :
    setFind key k (y :: ys) = if key y = k then some y else setFind key k ys := by
  unfold setFind
  by_cases h : key y = k <;> simp [List.find?, h]

theorem setFind_eq_none_of_forall_ne (k : κ) (s : List α) (h : ∀ y ∈ s, key y ≠ k) :
    setFind key k s = none := by
  unfold setFind
  simpa using h

theorem setFind_some_mem {k : κ} {s : List α} {r : α} (h : setFind key k s = some r) :
    r ∈ s ∧ key r = k := by
  unfold setFind at h
  have h1 := List.find?_some h
  have h2 := List.mem_of_find?_eq_some h
  exact ⟨h2, by simpa using h1⟩

theorem setFind_setErase (k : κ) (x : α) (s : List α) :
    setFind key k (setErase key x s) = if k = key x then none else setFind key k s := by
  induction s with
  | nil => simp [setErase, setFind]
  | cons y ys ih =>
    by_cases hy : key y = key x
    · have : setErase key x (y :: ys) = setErase key x ys := by
        simp [setErase, hy]
      rw [this, ih, setFind_cons]
      by_cases hk : k = key x
      · simp [hk]
      · have : key y ≠ k := fun h => hk (h ▸ hy)
        simp [hk, this]
    · have : setErase key x (y :: ys) = y :: setErase key x ys := by
        simp [setErase, hy]
      unfold setErase at this ih
      unfold setErase
      rw [this, setFind_cons, ih, setFind_cons]
      by_cases hk : k = key x
      · have : key y ≠ k := fun h => hy (h.trans hk)
        simp [hk, this]
        intro h
        exact absurd h hy
      · simp [hk]

theorem mem_setInsert {x z : α} {s : List α} (h : z ∈ setInsert key x s) :
    z = x ∨ z ∈ s := by
  induction s with
  | nil => simpa [setInsert] using h
  | cons y ys ih =>
    unfold setInsert at h
    split_ifs at h with h1 h2
    · simpa using h
    · rcases List.mem_cons.1 h with h | h
      · exact Or.inr (h ▸ List.mem_cons_self _ _)
      · rcases ih h with h | h
        · exact Or.inl h
        · exact Or.inr (List.mem_cons_of_mem _ h)
    · exact Or.inr h

theorem IsStdSet.setInsert {s : List α} (hs : IsStdSet key s) (x : α) :
    IsStdSet key (setInsert key x s) := by
  induction s with
  | nil => simp [Ravencoin.setInsert, IsStdSet]
  | cons y ys ih =>
    unfold IsStdSet at hs ih ⊢
    rw [List.pairwise_cons] at hs
    unfold Ravencoin.setInsert
    split_ifs with h1 h2
    · refine List.pairwise_cons.2 ⟨?_, List.pairwise_cons.2 hs⟩
      intro a ha
      rcases List.mem_cons.1 ha with ha | ha
      · exact ha ▸ h1
      · exact lt_trans h1 (hs.1 a ha)
    · refine List.pairwise_cons.2 ⟨?_, ih hs.2⟩
      intro a ha
      rcases mem_setInsert key ha with ha | ha
      · exact ha ▸ h2
      · exact hs.1 a ha
    · exact List.pairwise_cons.2 hs

theorem IsStdSet.setErase {s : List α} (hs : IsStdSet key s) (x : α) :
    IsStdSet key (setErase key x s) :=
  List.Pairwise.filter _ hs

theorem setFind_setInsert {s : List α} (hs : IsStdSet key s) (k : κ) (x : α) :
    setFind key k (setInsert key x s) =
      if k = key x then (match setFind key k s with
        | some y => some y
        | none => some x) else setFind key k s := by
  induction s with
  | nil =>
    by_cases hk : k = key x
    · simp [setInsert, setFind, hk]
    · have : key x ≠ k := fun h => hk h.symm
      simp [setInsert, setFind, hk, this]
  | cons y ys ih =>
    unfold IsStdSet at hs ih
    rw [List.pairwise_cons] at hs
    unfold setInsert
    by_cases h1 : key x < key y
    · rw [if_pos h1, setFind_cons (y := x)]
      by_cases hk : k = key x
      · have hnone : setFind key k (y :: ys) = none := by
          apply setFind_eq_none_of_forall_ne
          intro a ha
          rcases List.mem_cons.1 ha with ha | ha
          · rw [ha, hk]; exact ne_of_gt h1
          · rw [hk]; exact ne_of_gt (lt_trans h1 (hs.1 a ha))
        rw [hnone, if_pos hk.symm, if_pos hk]
      · have : key x ≠ k := fun h => hk h.symm
        rw [if_neg this, if_neg hk]
    · rw [if_neg h1]
      by_cases h2 : key y < key x
      · rw [if_pos h2, setFind_cons, setFind_cons, ih hs.2]
        by_cases hk : k = key x
        · have hy : key y ≠ k := by rw [hk]; exact ne_of_lt h2
          rw [if_neg hy, if_neg hy]
        · rw [if_neg hk, if_neg hk]
      · rw [if_neg h2]
        by_cases hk : k = key x
        · have hy : key y = k := by
            rw [hk]; exact le_antisymm (not_lt.1 h1) (not_lt.1 h2)
          rw [if_pos hk, setFind_cons, if_pos hy]
        · rw [if_neg hk]

theorem setErase_of_setCount_eq_zero {x : α} {s : List α} (h : setCount key x s = 0) :
    setErase key x s = s := by
  unfold setCount at h
  unfold setErase
  rw [List.length_eq_zero, List.filter_eq_nil_iff] at h
  rw [List.filter_eq_self]
  intro a ha
  simpa using h a ha

/-- Erase-then-insert puts `x` at its key and leaves every other key alone. -/
theorem setFind_upsert {s : List α} (hs : IsStdSet key s) (k : κ) (x : α) :
    setFind key k (setInsert key x (setErase key x s)) =
      if k = key x then some x else setFind key k s := by
  rw [setFind_setInsert key (hs.setErase key x), setFind_setErase]
  by_cases hk : k = key x
  · simp [hk]
  · simp [hk]

theorem filter_key_eq_toList {s : List α} (hs : IsStdSet key s) (k : κ) :
    s.filter (fun y => decide (key y = k)) = (setFind key k s).toList := by
  induction s with
  | nil => simp [setFind]
  | cons y ys ih =>
    unfold IsStdSet at hs ih
    rw [List.pairwise_cons] at hs
    rw [setFind_cons]
    by_cases hy : key y = k
    · have hnil : ys.filter (fun z => decide (key z = k)) = [] := by
        rw [List.filter_eq_nil_iff]
        intro a ha
        have := hs.1 a ha
        rw [hy] at this
        simpa using ne_of_gt this
      rw [List.filter_cons_of_pos (by simpa using hy), hnil, if_pos hy]
      rfl
    · rw [List.filter_cons_of_neg (by simpa using hy), if_neg hy]
      exact ih hs.2

theorem mem_iff_setFind {s : List α} (hs : IsStdSet key s) (z : α) :
    z ∈ s ↔ setFind key (key z) s = some z := by
  constructor
  · intro hz
    have hmem : z ∈ s.filter (fun y => decide (key y = key z)) := by
      rw [List.mem_filter]
      exact ⟨hz, by simp⟩
    rw [filter_key_eq_toList key hs] at hmem
    cases hf : setFind key (key z) s with
    | none => rw [hf] at hmem; simp at hmem
    | some w =>
      rw [hf] at hmem
      simp at hmem
      rw [hmem]
  · intro h
    exact (setFind_some_mem key h).1

theorem IsStdSet.nodup {s : List α} (hs : IsStdSet key s) : s.Nodup := by
  unfold IsStdSet at hs
  unfold List.Nodup
  refine List.Pairwise.imp ?_ hs
  intro a b hab heq
  rw [heq] at hab
  exact lt_irrefl _ hab

theorem IsStdSet.nodup_keys {s : List α} (hs : IsStdSet key s) : (s.map key).Nodup := by
  unfold IsStdSet at hs
  unfold List.Nodup
  rw [List.pairwise_map]
  refine List.Pairwise.imp ?_ hs
  intro a b hab
  exact ne_of_lt hab

/-- Two sets with the same content at every key are the same set. -/
theorem IsStdSet.ext {s t : List α} (hs : IsStdSet key s) (ht : IsStdSet key t)
    (h : ∀ k, setFind key k s = setFind key k t) : s = t := by
  haveI : IsAntisymm α (fun a b => key a < key b) :=
    ⟨fun a b h1 h2 => absurd h1 (lt_asymm h2)⟩
  have hperm : s.Perm t := by
    rw [List.perm_ext_iff_of_nodup (hs.nodup key) (ht.nodup key)]
    intro a
    rw [mem_iff_setFind key hs, mem_iff_setFind key ht, h]
  exact List.eq_of_perm_of_sorted hperm hs ht

/-! ### Runs of point updates -/

section Overlay

variable {β : Type} (k : κ) (kf : β → κ) (vf : β → Option α)

theorem overlayAt_cons (b : β) (l : List β) (acc : Option α) :
    overlayAt k kf vf (b :: l) acc =
      overlayAt k kf vf l (if k = kf b then vf b else acc) := rfl

theorem overlayAt_of_not_mem (l : List β) (acc : Option α)
    (h : ∀ b ∈ l, kf b ≠ k) : overlayAt k kf vf l acc = acc := by
  induction l generalizing acc with
  | nil => rfl
  | cons b l ih =>
    rw [overlayAt_cons, if_neg (fun hk => h b (List.mem_cons_self _ _) hk.symm)]
    exact ih acc (fun c hc => h c (List.mem_cons_of_mem _ hc))

theorem overlayAt_of_mem (l : List β) (acc : Option α) (c : Option α)
    (hex : ∃ b ∈ l, kf b = k) (hall : ∀ b ∈ l, kf b = k → vf b = c) :
    overlayAt k kf vf l acc = c := by
  induction l generalizing acc with
  | nil => simp at hex
  | cons b l ih =>
    rw [overlayAt_cons]
    by_cases hl : ∃ b' ∈ l, kf b' = k
    · exact ih _ hl (fun d hd => hall d (List.mem_cons_of_mem _ hd))
    · have hb : kf b = k := by
        rcases hex with ⟨d, hd, hdk⟩
        rcases List.mem_cons.1 hd with hd | hd
        · exact hd ▸ hdk
        · exact absurd ⟨d, hd, hdk⟩ hl
      rw [if_pos hb.symm, hall b (List.mem_cons_self _ _) hb]
      apply overlayAt_of_not_mem
      intro d hd hdk
      exact hl ⟨d, hd, hdk⟩

/-- A run of point updates either leaves key `k` alone or fixes its content,
whatever was there before. -/
theorem overlayAt_id_or_const (l : List β) :
    (∀ acc, overlayAt k kf vf l acc = acc) ∨ (∃ c, ∀ acc, overlayAt k kf vf l acc = c) := by
  induction l with
  | nil => exact Or.inl (fun _ => rfl)
  | cons b l ih =>
    rcases ih with ih | ⟨c, ih⟩
    · by_cases hb : k = kf b
      · refine Or.inr ⟨vf b, fun acc => ?_⟩
        rw [overlayAt_cons, if_pos hb, ih]
      · refine Or.inl (fun acc => ?_)
        rw [overlayAt_cons, if_neg hb, ih]
    · exact Or.inr ⟨c, fun acc => by rw [overlayAt_cons, ih]⟩

/-- When some entry of the run is filed under `k`, the run leaves at `k` what
one such entry put there. -/
theorem overlayAt_of_exists (l : List β) (acc : Option α) (hex : ∃ b ∈ l, kf b = k) :
    ∃ b ∈ l, kf b = k ∧ overlayAt k kf vf l acc = vf b := by
  induction l generalizing acc with
  | nil => simp at hex
  | cons b l ih =>
    rw [overlayAt_cons]
    by_cases hl : ∃ b' ∈ l, kf b' = k
    · rcases ih _ hl with ⟨d, hd, hdk, hval⟩
      exact ⟨d, List.mem_cons_of_mem _ hd, hdk, hval⟩
    · have hb : kf b = k := by
        rcases hex with ⟨d, hd, hdk⟩
        rcases List.mem_cons.1 hd with hd | hd
        · exact hd ▸ hdk
        · exact absurd ⟨d, hd, hdk⟩ hl
      refine ⟨b, List.mem_cons_self _ _, hb, ?_⟩
      rw [if_pos hb.symm]
      apply overlayAt_of_not_mem
      intro d hd hdk
      exact hl ⟨d, hd, hdk⟩

/-- A run of erasures leaves at `k` what was there, or nothing. -/
theorem overlayAt_none (l : List β) (acc : Option α) :
    overlayAt k kf (fun _ => (none : Option α)) l acc = acc ∨
      overlayAt k kf (fun _ => (none : Option α)) l acc = none := by
  by_cases hl : ∃ b ∈ l, kf b = k
  · exact Or.inr (overlayAt_of_mem k kf _ l acc none hl (fun _ _ _ => rfl))
  · refine Or.inl (overlayAt_of_not_mem k kf _ l acc ?_)
    intro b hb hbk
    exact hl ⟨b, hb, hbk⟩

/-- Reading a set after a loop: when every step keeps the set invariant and
acts at key `k` as a point update, the loop acts at `k` as the run of them. -/
theorem setFind_foldl (step : List α → β → List α)
    (hinv : ∀ s b, IsStdSet key s → IsStdSet key (step s b))
    (hfind : ∀ s b, IsStdSet key s →
      setFind key k (step s b) = if k = kf b then vf b else setFind key k s)
    (l : List β) (s : List α) (hs : IsStdSet key s) :
    setFind key k (l.foldl step s) = overlayAt k kf vf l (setFind key k s) := by
  induction l generalizing s with
  | nil => rfl
  | cons b l ih =>
    rw [List.foldl_cons, ih (step s b) (hinv s b hs), hfind s b hs, overlayAt_cons]

theorem IsStdSet.foldl (step : List α → β → List α)
    (hinv : ∀ s b, IsStdSet key s → IsStdSet key (step s b))
    (l : List β) (s : List α) (hs : IsStdSet key s) :
    IsStdSet key (l.foldl step s) := by
  induction l generalizing s with
  | nil => exact hs
  | cons b l ih => exact ih (step s b) (hinv s b hs)

end Overlay

end StdSetLemmas

/-! ## Facts about the message merge -/

section MessageLemmas

variable {OutPoint : Type} [LinearOrder OutPoint]

/-- The guard `if (setMessages.count(message))` changes nothing: erasing an
absent record is the identity. -/
theorem orphanStep_eq (s : List (CMessage OutPoint)) (p : OutPoint × CMessage OutPoint) :
    orphanStep s p =
      setInsert CMessage.key { p.2 with status := MessageStatus.ORPHAN }
        (setErase CMessage.key { p.2 with status := MessageStatus.ORPHAN } s) := by
  unfold orphanStep
  by_cases h : setCount CMessage.key { p.2 with status := MessageStatus.ORPHAN } s = 0
  · simp only [h, ne_eq, not_true_eq_false, if_false]
    rw [setErase_of_setCount_eq_zero CMessage.key h]
  · simp only [h, ne_eq, not_false_eq_true, if_true]

theorem orphanStep_isStdSet (s : List (CMessage OutPoint)) (p : OutPoint × CMessage OutPoint)
    (hs : IsStdSet CMessage.key s) : IsStdSet CMessage.key (orphanStep s p) := by
  rw [orphanStep_eq]
  exact (hs.setErase CMessage.key _).setInsert CMessage.key _

theorem removeStep_isStdSet (s : List (CMessage OutPoint)) (out : OutPoint)
    (hs : IsStdSet CMessage.key s) : IsStdSet CMessage.key (removeStep s out) :=
  hs.setErase CMessage.key _

theorem addStep_isStdSet (s : List (CMessage OutPoint)) (p : OutPoint × CMessage OutPoint)
    (hs : IsStdSet CMessage.key s) : IsStdSet CMessage.key (addStep s p) :=
  (hs.setErase CMessage.key _).setInsert CMessage.key _

theorem setFind_orphanStep (k : OutPoint) (s : List (CMessage OutPoint))
    (p : OutPoint × CMessage OutPoint) (hs : IsStdSet CMessage.key s) :
    setFind CMessage.key k (orphanStep s p) =
      if k = p.2.out then some { p.2 with status := MessageStatus.ORPHAN }
      else setFind CMessage.key k s := by
  rw [orphanStep_eq, setFind_upsert CMessage.key hs]
  rfl

theorem setFind_removeStep (k : OutPoint) (s : List (CMessage OutPoint)) (out : OutPoint)
    (_hs : IsStdSet CMessage.key s) :
    setFind CMessage.key k (removeStep s out) =
      if k = id out then (fun _ => none) out else setFind CMessage.key k s := by
  unfold removeStep
  rw [setFind_setErase]
  rfl

theorem setFind_addStep (k : OutPoint) (s : List (CMessage OutPoint))
    (p : OutPoint × CMessage OutPoint) (hs : IsStdSet CMessage.key s) :
    setFind CMessage.key k (addStep s p) =
      if k = p.2.out then some p.2 else setFind CMessage.key k s := by
  unfold addStep
  rw [setFind_upsert CMessage.key hs]
  rfl

theorem mergedMessages_isStdSet (D : List (CMessage OutPoint))
    (O : List (OutPoint × CMessage OutPoint)) (R : List OutPoint)
    (A : List (OutPoint × CMessage OutPoint)) (hD : IsStdSet CMessage.key D) :
    IsStdSet CMessage.key (mergedMessages D O R A) := by
  unfold mergedMessages
  apply IsStdSet.foldl CMessage.key addStep addStep_isStdSet
  apply IsStdSet.foldl CMessage.key removeStep removeStep_isStdSet
  exact IsStdSet.foldl CMessage.key orphanStep orphanStep_isStdSet _ _ hD

/-- The content of the merged set at key `k`: the three stages act on it as
three runs of point updates. -/
theorem setFind_mergedMessages (D : List (CMessage OutPoint))
    (O : List (OutPoint × CMessage OutPoint)) (R : List OutPoint)
    (A : List (OutPoint × CMessage OutPoint)) (hD : IsStdSet CMessage.key D) (k : OutPoint) :
    setFind CMessage.key k (mergedMessages D O R A) =
      overlayAt k (fun p => p.2.out) (fun p => some p.2) A
        (overlayAt k id (fun _ => none) R
          (overlayAt k (fun p => p.2.out)
            (fun p => some { p.2 with status := MessageStatus.ORPHAN }) O
            (setFind CMessage.key k D))) := by
  have hO := IsStdSet.foldl CMessage.key orphanStep orphanStep_isStdSet O D hD
  have hR := IsStdSet.foldl CMessage.key removeStep removeStep_isStdSet R _ hO
  unfold mergedMessages
  rw [setFind_foldl CMessage.key k (fun p => p.2.out) (fun p => some p.2) addStep
        addStep_isStdSet (setFind_addStep k) A _ hR,
      setFind_foldl CMessage.key k id (fun _ => none) removeStep
        removeStep_isStdSet (setFind_removeStep k) R _ hO,
      setFind_foldl CMessage.key k (fun p => p.2.out)
        (fun p => some { p.2 with status := MessageStatus.ORPHAN }) orphanStep
        orphanStep_isStdSet (setFind_orphanStep k) O D hD]

/-- A `std::map` whose records are filed under their own output reference
has no two records with the same output reference. -/
theorem UniqueOuts.of_keyedByOut {m : List (OutPoint × CMessage OutPoint)} (hm : IsStdMap m)
    (hk : KeyedByOut m) : UniqueOuts m := by
  unfold UniqueOuts
  have hm1 : IsStdSet Prod.fst m := hm
  have hmap : m.map (fun p => p.2.out) = m.map Prod.fst :=
    List.map_congr_left (fun p hp => hk p hp)
  rw [hmap]
  exact hm1.nodup_keys Prod.fst

end MessageLemmas

theorem viewallmessagesObjects_append {OutPoint : Type} (ext : MessageExternals)
    (s : List (CMessage OutPoint)) (acc : List UniValue) :
    s.foldl (fun messages message => messages ++ [renderMessage ext message]) acc =
      acc ++ s.map (renderMessage ext) := by
  induction s generalizing acc with
  | nil => simp
  | cons m s ih => rw [List.foldl_cons, ih, List.map_cons, List.append_assoc, List.singleton_append]

theorem viewallmessagesObjects_eq_map {OutPoint : Type} (ext : MessageExternals)
    (s : List (CMessage OutPoint)) :
    viewallmessagesObjects ext s = s.map (renderMessage ext) := by
  unfold viewallmessagesObjects
  rw [viewallmessagesObjects_append, List.nil_append]

/-! ## The claims on `viewallmessages` -/

section MessageClaims

variable {OutPoint : Type} [LinearOrder OutPoint]

/-- C1 (add wins). For every loaded set and dirty caches whose add map has its
records identified by their output reference (no two share one), and for every
record `r` of the add map, the merged set has exactly one record with the output reference of
`r`, and it is `r` with all its fields - whatever the loaded set, the orphan
map and the remove set hold for that key. -/
theorem viewallmessages_add_wins (D : List (CMessage OutPoint))
    (O : List (OutPoint × CMessage OutPoint)) (R : List OutPoint)
    (A : List (OutPoint × CMessage OutPoint)) (hD : IsStdSet CMessage.key D)
    (hA : UniqueOuts A) (r : CMessage OutPoint)
    (hr : r ∈ A.map Prod.snd) :
    (mergedMessages D O R A).filter (fun m => decide (m.out = r.out)) = [r] := by
  have hfilter := filter_key_eq_toList CMessage.key (mergedMessages_isStdSet D O R A hD) r.out
  have hfind : setFind CMessage.key r.out (mergedMessages D O R A) = some r := by
    rw [setFind_mergedMessages D O R A hD]
    rcases List.mem_map.1 hr with ⟨p, hp, hpr⟩
    apply overlayAt_of_mem
    · exact ⟨p, hp, by rw [hpr]⟩
    · intro b hb hbk
      have : b = p := List.inj_on_of_nodup_map hA hb hp (by rw [hbk, hpr])
      rw [this, hpr]
  rw [hfind] at hfilter
  exact hfilter

/-- Scenario A of the spec: the loaded copy of `out1` is unread, the add map
holds the same record as read; the view shows the read one. -/
theorem viewallmessages_add_wins_witness :
    (mergedMessages
        [({ out := 1, strName := "CHAN!", ipfsHash := "hashA", time := 0, nExpiredTime := 0,
            status := MessageStatus.UNREAD, nBlockHeight := 10 } : CMessage Nat)]
        [] []
        [(1, { out := 1, strName := "CHAN!", ipfsHash := "hashA", time := 0, nExpiredTime := 0,
               status := MessageStatus.READ, nBlockHeight := 10 })]).filter
        (fun m => decide (m.out =
          ({ out := 1, strName := "CHAN!", ipfsHash := "hashA", time := 0, nExpiredTime := 0,
             status := MessageStatus.READ, nBlockHeight := 10 } : CMessage Nat).out)) =
      [{ out := 1, strName := "CHAN!", ipfsHash := "hashA", time := 0, nExpiredTime := 0,
         status := MessageStatus.READ, nBlockHeight := 10 }] :=
  viewallmessages_add_wins _ [] [] _ (by decide) (by decide) _ (by decide)

/-- C2 (remove wins over orphan and loaded). For every loaded set and dirty
caches, and every output reference `k` in the remove set that is not the
output reference of an add-map record, the merged set has no record with
output reference `k` - whether or not the loaded set or the orphan map has
one. -/
theorem viewallmessages_remove_wins (D : List (CMessage OutPoint))
    (O : List (OutPoint × CMessage OutPoint)) (R : List OutPoint)
    (A : List (OutPoint × CMessage OutPoint)) (hD : IsStdSet CMessage.key D)
    (k : OutPoint) (hk : k ∈ R) (hA : ∀ p ∈ A, p.2.out ≠ k) :
    ∀ m ∈ mergedMessages D O R A, m.out ≠ k := by
  intro m hm hmk
  have hfind := (mem_iff_setFind CMessage.key (mergedMessages_isStdSet D O R A hD) m).1 hm
  rw [setFind_mergedMessages D O R A hD] at hfind
  have hkey : CMessage.key m = k := hmk
  rw [hkey, overlayAt_of_not_mem k _ _ A _ hA,
    overlayAt_of_mem k id (fun _ => none) R _ none ⟨k, hk, rfl⟩ (fun _ _ _ => rfl)] at hfind
  exact Option.noConfusion hfind

/-- Scenario B of the spec: `out1` is loaded, orphaned and removed; the view
has no record for it. -/
theorem viewallmessages_remove_wins_witness :
    (mergedMessages
        [({ out := 1, strName := "CHAN!", ipfsHash := "hashA", time := 0, nExpiredTime := 0,
            status := MessageStatus.UNREAD, nBlockHeight := 10 } : CMessage Nat)]
        [(1, { out := 1, strName := "CHAN!", ipfsHash := "hashA", time := 0, nExpiredTime := 0,
               status := MessageStatus.ORPHAN, nBlockHeight := 10 })]
        [1] []).filter (fun m => decide (m.out = 1)) = [] :=
  List.filter_eq_nil_iff.2 (fun m hm => by
    simpa using viewallmessages_remove_wins _ _ [1] [] (by decide) 1 (by decide) (by decide) m hm)

/-- C3 (orphan wins over loaded). For every loaded set and dirty caches whose
orphan map has its records identified by their output reference (no two share
one), and for every record `o` of the orphan map whose output reference is neither in the remove
set nor that of an add-map record, the merged set has exactly one record with
the output reference of `o`: it is `o` with the status set to `ORPHAN`, so all
other fields are those of the orphan entry and not those of the loaded copy. -/
theorem viewallmessages_orphan_wins (D : List (CMessage OutPoint))
    (O : List (OutPoint × CMessage OutPoint)) (R : List OutPoint)
    (A : List (OutPoint × CMessage OutPoint)) (hD : IsStdSet CMessage.key D)
    (hO : UniqueOuts O) (o : CMessage OutPoint)
    (ho : o ∈ O.map Prod.snd) (hR : o.out ∉ R) (hA : ∀ p ∈ A, p.2.out ≠ o.out) :
    (mergedMessages D O R A).filter (fun m => decide (m.out = o.out)) =
      [{ o with status := MessageStatus.ORPHAN }] := by
  have hfilter := filter_key_eq_toList CMessage.key (mergedMessages_isStdSet D O R A hD) o.out
  have hfind : setFind CMessage.key o.out (mergedMessages D O R A) =
      some { o with status := MessageStatus.ORPHAN } := by
    rw [setFind_mergedMessages D O R A hD, overlayAt_of_not_mem o.out _ _ A _ hA,
      overlayAt_of_not_mem o.out id (fun _ => none) R _ (fun b hb hbk => hR (hbk ▸ hb))]
    rcases List.mem_map.1 ho with ⟨p, hp, hpo⟩
    apply overlayAt_of_mem
    · exact ⟨p, hp, by rw [hpo]⟩
    · intro b hb hbk
      have : b = p := List.inj_on_of_nodup_map hO hb hp (by rw [hbk, hpo])
      rw [this, hpo]
  rw [hfind] at hfilter
  exact hfilter

/-- The loaded copy of `out1` is unread at height 10; the orphan map holds it
at height 11: the view shows the orphan entry, status `ORPHAN`. -/
theorem viewallmessages_orphan_wins_witness :
    (mergedMessages
        [({ out := 1, strName := "CHAN!", ipfsHash := "hashA", time := 0, nExpiredTime := 0,
            status := MessageStatus.UNREAD, nBlockHeight := 10 } : CMessage Nat)]
        [(1, { out := 1, strName := "CHAN!", ipfsHash := "hashB", time := 5, nExpiredTime := 0,
               status := MessageStatus.READ, nBlockHeight := 11 })]
        [2] []).filter
        (fun m => decide (m.out =
          ({ out := 1, strName := "CHAN!", ipfsHash := "hashB", time := 5, nExpiredTime := 0,
             status := MessageStatus.READ, nBlockHeight := 11 } : CMessage Nat).out)) =
      [{ ({ out := 1, strName := "CHAN!", ipfsHash := "hashB", time := 5, nExpiredTime := 0,
            status := MessageStatus.READ, nBlockHeight := 11 } : CMessage Nat) with
          status := MessageStatus.ORPHAN }] :=
  viewallmessages_orphan_wins _ _ [2] [] (by decide) (by decide) _ (by decide)
    (by decide) (by decide)

/-- C4 (no duplicate keys). For every loaded set and dirty caches, no two
records of the merged set have the same output reference; the returned array
has one object per record of the merged set, in the same order, so no two of
its objects stand for the same output reference. -/
theorem viewallmessages_no_duplicate_keys (ext : MessageExternals)
    (D : List (CMessage OutPoint))
    (O : List (OutPoint × CMessage OutPoint)) (R : List OutPoint)
    (A : List (OutPoint × CMessage OutPoint)) (hD : IsStdSet CMessage.key D) :
    ((mergedMessages D O R A).map (fun m => m.out)).Nodup ∧
    viewallmessagesObjects ext (mergedMessages D O R A) =
      (mergedMessages D O R A).map (renderMessage ext) :=
  ⟨(mergedMessages_isStdSet D O R A hD).nodup_keys CMessage.key,
    viewallmessagesObjects_eq_map ext _⟩

/-- Key 1 is loaded, orphaned and added, key 2 is added twice over: each
appears once in the view. -/
theorem viewallmessages_no_duplicate_keys_witness :
    ((mergedMessages
        [({ out := 1, strName := "CHAN!", ipfsHash := "hashA", time := 0, nExpiredTime := 0,
            status := MessageStatus.UNREAD, nBlockHeight := 10 } : CMessage Nat)]
        [(1, { out := 1, strName := "CHAN!", ipfsHash := "hashA", time := 0, nExpiredTime := 0,
               status := MessageStatus.UNREAD, nBlockHeight := 10 })]
        []
        [(1, { out := 1, strName := "CHAN!", ipfsHash := "hashA", time := 0, nExpiredTime := 0,
               status := MessageStatus.READ, nBlockHeight := 10 }),
         (2, { out := 2, strName := "CHAN!", ipfsHash := "hashC", time := 0, nExpiredTime := 0,
               status := MessageStatus.READ, nBlockHeight := 12 })]).map
        (fun m => m.out)).Nodup :=
  (viewallmessages_no_duplicate_keys
    { EncodeIPFS := fun h => h, DateTimeStrFormat := fun _ _ => "",
      MessageStatusToString := fun _ => "" } _ _ [] _ (by decide)).1

/-- C5 (empty-overlay identity). With the three dirty caches empty the merged
set is the loaded set, record for record and field for field. -/
theorem viewallmessages_empty_overlay (D : List (CMessage OutPoint)) :
    mergedMessages D [] [] [] = D := rfl

/-- C6 (idempotent merge). Merging the merged set once more with the same
dirty caches gives the merged set again. -/
theorem viewallmessages_merge_idempotent (D : List (CMessage OutPoint))
    (O : List (OutPoint × CMessage OutPoint)) (R : List OutPoint)
    (A : List (OutPoint × CMessage OutPoint)) (hD : IsStdSet CMessage.key D) :
    mergedMessages (mergedMessages D O R A) O R A = mergedMessages D O R A := by
  have hM := mergedMessages_isStdSet D O R A hD
  apply IsStdSet.ext CMessage.key (mergedMessages_isStdSet _ O R A hM) hM
  intro k
  rw [setFind_mergedMessages _ O R A hM, setFind_mergedMessages D O R A hD]
  rcases overlayAt_id_or_const (α := CMessage OutPoint) k (fun p => p.2.out)
    (fun p => some p.2) A with hA | ⟨c, hA⟩
  · simp only [hA]
    rcases overlayAt_id_or_const (α := CMessage OutPoint) k id (fun _ => none) R
      with hR | ⟨c, hR⟩
    · simp only [hR]
      rcases overlayAt_id_or_const (α := CMessage OutPoint) k (fun p => p.2.out)
        (fun p => some { p.2 with status := MessageStatus.ORPHAN }) O with hO | ⟨c, hO⟩
      · simp only [hO]
      · rw [hO, hO]
    · rw [hR, hR]
  · rw [hA, hA]

/-- Key 1 is loaded, orphaned and removed, key 2 is added: a second merge
changes nothing. -/
theorem viewallmessages_merge_idempotent_witness :
    mergedMessages
      (mergedMessages
        [({ out := 1, strName := "CHAN!", ipfsHash := "hashA", time := 0, nExpiredTime := 0,
            status := MessageStatus.UNREAD, nBlockHeight := 10 } : CMessage Nat)]
        [(1, { out := 1, strName := "CHAN!", ipfsHash := "hashA", time := 0, nExpiredTime := 0,
               status := MessageStatus.UNREAD, nBlockHeight := 10 })]
        [1]
        [(2, { out := 2, strName := "CHAN!", ipfsHash := "hashC", time := 0, nExpiredTime := 0,
               status := MessageStatus.READ, nBlockHeight := 12 })])
      [(1, { out := 1, strName := "CHAN!", ipfsHash := "hashA", time := 0, nExpiredTime := 0,
             status := MessageStatus.UNREAD, nBlockHeight := 10 })]
      [1]
      [(2, { out := 2, strName := "CHAN!", ipfsHash := "hashC", time := 0, nExpiredTime := 0,
             status := MessageStatus.READ, nBlockHeight := 12 })] =
    mergedMessages
      [({ out := 1, strName := "CHAN!", ipfsHash := "hashA", time := 0, nExpiredTime := 0,
          status := MessageStatus.UNREAD, nBlockHeight := 10 } : CMessage Nat)]
      [(1, { out := 1, strName := "CHAN!", ipfsHash := "hashA", time := 0, nExpiredTime := 0,
             status := MessageStatus.UNREAD, nBlockHeight := 10 })]
      [1]
      [(2, { out := 2, strName := "CHAN!", ipfsHash := "hashC", time := 0, nExpiredTime := 0,
             status := MessageStatus.READ, nBlockHeight := 12 })] :=
  viewallmessages_merge_idempotent _ _ [1] _ (by decide)

end MessageClaims

/-! ## Facts about the channel merge -/

theorem mem_setInsert_id (x z : String) (s : List String) :
    z ∈ setInsert id x s ↔ z = x ∨ z ∈ s := by
  induction s with
  | nil => simp [setInsert]
  | cons y ys ih =>
    unfold setInsert
    by_cases h1 : id x < id y
    · rw [if_pos h1]
      simp
    · rw [if_neg h1]
      by_cases h2 : id y < id x
      · rw [if_pos h2, List.mem_cons, ih, List.mem_cons]
        tauto
      · rw [if_neg h2]
        have hxy : x = y := le_antisymm (not_lt.1 h2) (not_lt.1 h1)
        rw [List.mem_cons, hxy]
        tauto

theorem mem_setErase_id (x z : String) (s : List String) :
    z ∈ setErase id x s ↔ z ∈ s ∧ z ≠ x := by
  unfold setErase
  simp [List.mem_filter]

theorem mem_foldl_setErase_id (R : List String) (z : String) (s : List String) :
    z ∈ R.foldl (fun setChannels name => setErase id name setChannels) s ↔ z ∈ s ∧ z ∉ R := by
  induction R generalizing s with
  | nil => simp
  | cons r R ih =>
    rw [List.foldl_cons, ih, mem_setErase_id, List.mem_cons]
    tauto

theorem mem_foldl_setInsert_id (A : List String) (z : String) (s : List String) :
    z ∈ A.foldl (fun setChannels name => setInsert id name setChannels) s ↔ z ∈ s ∨ z ∈ A := by
  induction A generalizing s with
  | nil => simp
  | cons a A ih =>
    rw [List.foldl_cons, ih, mem_setInsert_id, List.mem_cons]
    tauto

theorem foldl_push_back (l acc : List String) :
    l.foldl (fun channels name => channels ++ [name]) acc = acc ++ l := by
  induction l generalizing acc with
  | nil => simp
  | cons x l ih => rw [List.foldl_cons, ih, List.append_assoc, List.singleton_append]

theorem viewallmessagechannelsNames_eq (D R A : List String) :
    viewallmessagechannelsNames D R A = mergedChannels D R A := by
  unfold viewallmessagechannelsNames
  rw [foldl_push_back, List.nil_append]

/-! ## The claim on `viewallmessagechannels` -/

/-- C7 (channel merge). For every loaded channel set `D` and dirty sets `R`
(remove) and `A` (add), the names `viewallmessagechannels` returns are exactly
those of `(D minus R) union A`; a name in both `R` and `A` is returned, a name
in `R` and not in `A` is not, and with `R` and `A` empty the names returned are
`D` itself. -/
theorem viewallmessagechannels_merge (D R A : List String) :
    (∀ n, n ∈ viewallmessagechannelsNames D R A ↔ (n ∈ D ∧ n ∉ R) ∨ n ∈ A) ∧
    (∀ n, n ∈ R → n ∈ A → n ∈ viewallmessagechannelsNames D R A) ∧
    (∀ n, n ∈ R → n ∉ A → n ∉ viewallmessagechannelsNames D R A) ∧
    viewallmessagechannelsNames D [] [] = D := by
  have hmem : ∀ n, n ∈ viewallmessagechannelsNames D R A ↔ (n ∈ D ∧ n ∉ R) ∨ n ∈ A := by
    intro n
    rw [viewallmessagechannelsNames_eq]
    unfold mergedChannels
    rw [mem_foldl_setInsert_id, mem_foldl_setErase_id]
  refine ⟨hmem, ?_, ?_, ?_⟩
  · intro n _ hA
    exact (hmem n).2 (Or.inr hA)
  · intro n hR hA hn
    rcases (hmem n).1 hn with h | h
    · exact h.2 hR
    · exact hA h
  · rw [viewallmessagechannelsNames_eq]
    rfl

/-! ## The claims on `addipfsdata` -/

/-- What `addipfsdata` does with a request that carries a payload, check by
check. -/
theorem addipfsdata_submitRequest (ext : IpfsExternals) (w : IpfsWorld) (data : String) :
    addipfsdata ext (submitRequest data) w =
      if w.fIPFS = false then
        (Except.error (RpcException.JSONRPCError RPCErrorCode.RPC_INVALID_REQUEST
          (ext.translate msgIpfsTurnedOff)), w)
      else if w.globalIpfsState ≠ IPFS_STATE.DAEMON_CLIENT_CONNECTED then
        (Except.error (RpcException.JSONRPCError RPCErrorCode.RPC_INVALID_REQUEST
          (ext.translate msgIpfsNotRunning)), w)
      else if data.utf8ByteSize > ext.MAX_IPFS_DATA_SIZE then
        (Except.error (RpcException.JSONRPCError RPCErrorCode.RPC_INVALID_REQUEST
          (ext.translate msgIpfsDataTooLarge)), w)
      else if (ext.AddIpfsData data).1 = false then
        (Except.error (RpcException.JSONRPCError RPCErrorCode.RPC_INTERNAL_ERROR
          (ext.translate msgIpfsAddFailed)),
          { w with calls := w.calls ++ [ExternalCall.AddIpfsData data] })
      else
        (Except.ok (UniValue.VSTR (ext.AddIpfsData data).2.ipfsHash),
          { w with calls := w.calls ++ [ExternalCall.AddIpfsData data] }) := by
  unfold addipfsdata submitRequest
  cases hf : w.fIPFS <;> simp [UniValue.get_str]

/-- C8, as stated, fails: with `fIPFS` off and the daemon not running, the
error of `addipfsdata` is the one of the `fIPFS` check (line 333), not the
"Local Ipfs node is not running" one. -/
theorem addipfsdata_not_connected_counterexample :
    ({ fIPFS := false, globalIpfsState := IPFS_STATE.NOT_RUNNING, calls := [] } :
        IpfsWorld).globalIpfsState ≠ IPFS_STATE.DAEMON_CLIENT_CONNECTED ∧
    (addipfsdata sampleExternals (submitRequest "abc")
        { fIPFS := false, globalIpfsState := IPFS_STATE.NOT_RUNNING, calls := [] }).1 =
      Except.error (RpcException.JSONRPCError RPCErrorCode.RPC_INVALID_REQUEST
        (sampleExternals.translate msgIpfsTurnedOff)) ∧
    (addipfsdata sampleExternals (submitRequest "abc")
        { fIPFS := false, globalIpfsState := IPFS_STATE.NOT_RUNNING, calls := [] }).1 ≠
      Except.error (RpcException.JSONRPCError RPCErrorCode.RPC_INVALID_REQUEST
        (sampleExternals.translate msgIpfsNotRunning)) := by
  refine ⟨by decide, rfl, ?_⟩
  rw [addipfsdata_submitRequest]
  simp only [if_true]
  intro h
  injection h with h
  injection h with _ h
  revert h
  unfold sampleExternals msgIpfsTurnedOff msgIpfsNotRunning
  decide

/-- C8 (submit needs a connected daemon), amended. For every payload and
every lifecycle state other than `DAEMON_CLIENT_CONNECTED`, `addipfsdata`
fails, makes no call to the external `AddIpfsData` and leaves the lifecycle
state as it was; the error is the "Local Ipfs node is not running" one when
`fIPFS` is on, and the "Ipfs operations have been turned off" one when it is
off. -/
theorem addipfsdata_needs_connected_daemon (ext : IpfsExternals) (w : IpfsWorld)
    (data : String) (hs : w.globalIpfsState ≠ IPFS_STATE.DAEMON_CLIENT_CONNECTED) :
    (w.fIPFS = true → (addipfsdata ext (submitRequest data) w).1 =
      Except.error (RpcException.JSONRPCError RPCErrorCode.RPC_INVALID_REQUEST
        (ext.translate msgIpfsNotRunning))) ∧
    (w.fIPFS = false → (addipfsdata ext (submitRequest data) w).1 =
      Except.error (RpcException.JSONRPCError RPCErrorCode.RPC_INVALID_REQUEST
        (ext.translate msgIpfsTurnedOff))) ∧
    (addipfsdata ext (submitRequest data) w).2.calls = w.calls ∧
    (addipfsdata ext (submitRequest data) w).2.globalIpfsState = w.globalIpfsState := by
  rw [addipfsdata_submitRequest]
  cases hf : w.fIPFS <;> simp [hs]

/-- Scenario D of the spec, first step: the gate is `NOT_RUNNING`, IPFS is on,
and data is submitted. -/
theorem addipfsdata_needs_connected_daemon_witness :
    (true = true → (addipfsdata sampleExternals (submitRequest "abc")
        { fIPFS := true, globalIpfsState := IPFS_STATE.NOT_RUNNING, calls := [] }).1 =
      Except.error (RpcException.JSONRPCError RPCErrorCode.RPC_INVALID_REQUEST
        (sampleExternals.translate msgIpfsNotRunning))) ∧
    (true = false → (addipfsdata sampleExternals (submitRequest "abc")
        { fIPFS := true, globalIpfsState := IPFS_STATE.NOT_RUNNING, calls := [] }).1 =
      Except.error (RpcException.JSONRPCError RPCErrorCode.RPC_INVALID_REQUEST
        (sampleExternals.translate msgIpfsTurnedOff))) ∧
    (addipfsdata sampleExternals (submitRequest "abc")
        { fIPFS := true, globalIpfsState := IPFS_STATE.NOT_RUNNING, calls := [] }).2.calls = [] ∧
    (addipfsdata sampleExternals (submitRequest "abc")
        { fIPFS := true, globalIpfsState := IPFS_STATE.NOT_RUNNING, calls := [] }).2.globalIpfsState
      = IPFS_STATE.NOT_RUNNING :=
  addipfsdata_needs_connected_daemon sampleExternals
    { fIPFS := true, globalIpfsState := IPFS_STATE.NOT_RUNNING, calls := [] } "abc" (by decide)

/-- C9 (the payload size limit is inclusive). With the daemon connected:
a payload longer than `MAX_IPFS_DATA_SIZE` is rejected with no call to the
external `AddIpfsData` and the lifecycle state unchanged - by the size error
when `fIPFS` is on; a payload of length at most `MAX_IPFS_DATA_SIZE` is not
stopped by the size check: with `fIPFS` on it reaches the external call, whose
verdict decides the outcome, and with `fIPFS` off the rejection is the one of
the `fIPFS` check. -/
theorem addipfsdata_size_limit (ext : IpfsExternals) (w : IpfsWorld) (data : String)
    (hs : w.globalIpfsState = IPFS_STATE.DAEMON_CLIENT_CONNECTED) :
    (data.utf8ByteSize > ext.MAX_IPFS_DATA_SIZE →
      (∃ e, (addipfsdata ext (submitRequest data) w).1 = Except.error e) ∧
      (addipfsdata ext (submitRequest data) w).2.calls = w.calls ∧
      (addipfsdata ext (submitRequest data) w).2.globalIpfsState = w.globalIpfsState ∧
      (w.fIPFS = true → (addipfsdata ext (submitRequest data) w).1 =
        Except.error (RpcException.JSONRPCError RPCErrorCode.RPC_INVALID_REQUEST
          (ext.translate msgIpfsDataTooLarge)))) ∧
    (data.utf8ByteSize ≤ ext.MAX_IPFS_DATA_SIZE →
      (w.fIPFS = true →
        (addipfsdata ext (submitRequest data) w).2.calls =
          w.calls ++ [ExternalCall.AddIpfsData data] ∧
        (addipfsdata ext (submitRequest data) w).1 =
          if (ext.AddIpfsData data).1 = true then
            Except.ok (UniValue.VSTR (ext.AddIpfsData data).2.ipfsHash)
          else
            Except.error (RpcException.JSONRPCError RPCErrorCode.RPC_INTERNAL_ERROR
              (ext.translate msgIpfsAddFailed))) ∧
      (w.fIPFS = false → (addipfsdata ext (submitRequest data) w).1 =
        Except.error (RpcException.JSONRPCError RPCErrorCode.RPC_INVALID_REQUEST
          (ext.translate msgIpfsTurnedOff)))) := by
  rw [addipfsdata_submitRequest]
  refine ⟨fun hsz => ?_, fun hsz => ?_⟩
  · cases hf : w.fIPFS <;> simp [hs, hsz]
  · have hsz2 : ¬ data.utf8ByteSize > ext.MAX_IPFS_DATA_SIZE := not_lt.2 hsz
    cases hf : w.fIPFS
    · simp
    · cases ha : (ext.AddIpfsData data).1 <;> simp [hs, hsz2]

/-- Scenario D of the spec, second step: the limit is three bytes and the
daemon is connected; `abcd` (one byte over) and `abc` (at the limit) are
submitted. -/
theorem addipfsdata_size_limit_witness :
    ("abcd".utf8ByteSize > sampleExternals.MAX_IPFS_DATA_SIZE ∧
      (addipfsdata sampleExternals (submitRequest "abcd")
        { fIPFS := true, globalIpfsState := IPFS_STATE.DAEMON_CLIENT_CONNECTED,
          calls := [] }).1 =
        Except.error (RpcException.JSONRPCError RPCErrorCode.RPC_INVALID_REQUEST
          (sampleExternals.translate msgIpfsDataTooLarge))) ∧
    ("abc".utf8ByteSize ≤ sampleExternals.MAX_IPFS_DATA_SIZE ∧
      (addipfsdata sampleExternals (submitRequest "abc")
        { fIPFS := true, globalIpfsState := IPFS_STATE.DAEMON_CLIENT_CONNECTED,
          calls := [] }).2.calls = [] ++ [ExternalCall.AddIpfsData "abc"]) :=
  ⟨⟨by decide,
    ((addipfsdata_size_limit sampleExternals
      { fIPFS := true, globalIpfsState := IPFS_STATE.DAEMON_CLIENT_CONNECTED, calls := [] }
      "abcd" rfl).1 (by decide)).2.2.2 rfl⟩,
   ⟨by decide,
    (((addipfsdata_size_limit sampleExternals
      { fIPFS := true, globalIpfsState := IPFS_STATE.DAEMON_CLIENT_CONNECTED, calls := [] }
      "abc" rfl).2 (by decide)).1 rfl).1⟩⟩

/-- C10 (submit succeeds iff all preconditions hold). For every payload,
`addipfsdata` returns a value if and only if `fIPFS` is on, the lifecycle state
is `DAEMON_CLIENT_CONNECTED`, the payload has at most `MAX_IPFS_DATA_SIZE`
bytes and the external `AddIpfsData` reports success; the value returned is
then the content hash that call produced. -/
theorem addipfsdata_succeeds_iff (ext : IpfsExternals) (w : IpfsWorld) (data : String) :
    ((∃ v, (addipfsdata ext (submitRequest data) w).1 = Except.ok v) ↔
      (w.fIPFS = true ∧ w.globalIpfsState = IPFS_STATE.DAEMON_CLIENT_CONNECTED ∧
        data.utf8ByteSize ≤ ext.MAX_IPFS_DATA_SIZE ∧ (ext.AddIpfsData data).1 = true)) ∧
    (∀ v, (addipfsdata ext (submitRequest data) w).1 = Except.ok v →
      v = UniValue.VSTR (ext.AddIpfsData data).2.ipfsHash) := by
  rw [addipfsdata_submitRequest]
  cases hf : w.fIPFS
  · simp
  · by_cases hs : w.globalIpfsState = IPFS_STATE.DAEMON_CLIENT_CONNECTED
    · by_cases hsz : data.utf8ByteSize > ext.MAX_IPFS_DATA_SIZE
      · have hsz2 : ¬ data.utf8ByteSize ≤ ext.MAX_IPFS_DATA_SIZE := not_le.2 hsz
        simp [hs, hsz, hsz2]
      · have hsz2 : data.utf8ByteSize ≤ ext.MAX_IPFS_DATA_SIZE := not_lt.1 hsz
        cases ha : (ext.AddIpfsData data).1
        · simp [hs, hsz, hsz2]
        · simp [hs, hsz, hsz2]
    · simp [hs]

/-! ## The claims on `pinipfshash`, `getipfsnodestatus` and `startipfsnode` -/

/-- What `pinipfshash` does with a request that carries a hash, check by
check. -/
theorem pinipfshash_submitRequest (ext : PinExternals) (w : IpfsWorld) (hash : String) :
    pinipfshash ext (submitRequest hash) w =
      if w.fIPFS = false then
        (Except.error (RpcException.JSONRPCError RPCErrorCode.RPC_INVALID_REQUEST
          (ext.translate msgIpfsTurnedOff)), w)
      else if w.globalIpfsState ≠ IPFS_STATE.DAEMON_CLIENT_CONNECTED then
        (Except.error (RpcException.JSONRPCError RPCErrorCode.RPC_INVALID_REQUEST
          (ext.translate msgIpfsNotRunning)), w)
      else if (ext.CheckIPFSHash hash).1 = false then
        (Except.error (RpcException.JSONRPCError RPCErrorCode.RPC_INVALID_PARAMETER
          (ext.CheckIPFSHash hash).2), w)
      else if ext.PinIpfsFile hash = false then
        (Except.error (RpcException.JSONRPCError RPCErrorCode.RPC_INTERNAL_ERROR
          msgIpfsPinFailed),
          { w with calls := w.calls ++ [ExternalCall.PinIpfsFile hash] })
      else
        (Except.ok UniValue.VNULL,
          { w with calls := w.calls ++ [ExternalCall.PinIpfsFile hash] }) := by
  unfold pinipfshash submitRequest
  cases hf : w.fIPFS <;> simp [UniValue.get_str]

/-- C11, as stated, fails: with the daemon not running, a malformed hash is
turned away by the state check (line 383) with `RPC_INVALID_REQUEST`, before
the format check is reached. -/
theorem pinipfshash_malformed_hash_counterexample :
    (samplePinExternals.CheckIPFSHash "abc").1 = false ∧
    (pinipfshash samplePinExternals (submitRequest "abc")
        { fIPFS := true, globalIpfsState := IPFS_STATE.NOT_RUNNING, calls := [] }).1 =
      Except.error (RpcException.JSONRPCError RPCErrorCode.RPC_INVALID_REQUEST
        (samplePinExternals.translate msgIpfsNotRunning)) ∧
    (pinipfshash samplePinExternals (submitRequest "abc")
        { fIPFS := true, globalIpfsState := IPFS_STATE.NOT_RUNNING, calls := [] }).1 ≠
      Except.error (RpcException.JSONRPCError RPCErrorCode.RPC_INVALID_PARAMETER
        (samplePinExternals.CheckIPFSHash "abc").2) := by
  refine ⟨by decide, rfl, ?_⟩
  rw [pinipfshash_submitRequest]
  intro h
  simp at h

/-- C11 (pin rejects a malformed hash), amended. For every hash string that
fails the format check, `pinipfshash` fails and makes no call to the external
`PinIpfsFile`; with `fIPFS` on and the daemon connected the failure is the
validation error, `RPC_INVALID_PARAMETER` with the message of the checker;
otherwise it is the error of the earlier check. -/
theorem pinipfshash_rejects_malformed_hash (ext : PinExternals) (w : IpfsWorld)
    (hash : String) (hbad : (ext.CheckIPFSHash hash).1 = false) :
    (∃ e, (pinipfshash ext (submitRequest hash) w).1 = Except.error e) ∧
    (pinipfshash ext (submitRequest hash) w).2.calls = w.calls ∧
    (w.fIPFS = true → w.globalIpfsState = IPFS_STATE.DAEMON_CLIENT_CONNECTED →
      (pinipfshash ext (submitRequest hash) w).1 =
        Except.error (RpcException.JSONRPCError RPCErrorCode.RPC_INVALID_PARAMETER
          (ext.CheckIPFSHash hash).2)) ∧
    (w.fIPFS = true → w.globalIpfsState ≠ IPFS_STATE.DAEMON_CLIENT_CONNECTED →
      (pinipfshash ext (submitRequest hash) w).1 =
        Except.error (RpcException.JSONRPCError RPCErrorCode.RPC_INVALID_REQUEST
          (ext.translate msgIpfsNotRunning))) ∧
    (w.fIPFS = false →
      (pinipfshash ext (submitRequest hash) w).1 =
        Except.error (RpcException.JSONRPCError RPCErrorCode.RPC_INVALID_REQUEST
          (ext.translate msgIpfsTurnedOff))) := by
  rw [pinipfshash_submitRequest]
  cases hf : w.fIPFS
  · simp
  · by_cases hs : w.globalIpfsState = IPFS_STATE.DAEMON_CLIENT_CONNECTED
    · simp [hs, hbad]
    · simp [hs]

/-- Scenario E of the spec: the daemon is connected and `abc`, which is not a
well-formed hash, is to be pinned. -/
theorem pinipfshash_rejects_malformed_hash_witness :
    (pinipfshash samplePinExternals (submitRequest "abc")
        { fIPFS := true, globalIpfsState := IPFS_STATE.DAEMON_CLIENT_CONNECTED,
          calls := [] }).1 =
      Except.error (RpcException.JSONRPCError RPCErrorCode.RPC_INVALID_PARAMETER
        (samplePinExternals.CheckIPFSHash "abc").2) ∧
    (pinipfshash samplePinExternals (submitRequest "abc")
        { fIPFS := true, globalIpfsState := IPFS_STATE.DAEMON_CLIENT_CONNECTED,
          calls := [] }).2.calls = [] :=
  ⟨(pinipfshash_rejects_malformed_hash samplePinExternals
      { fIPFS := true, globalIpfsState := IPFS_STATE.DAEMON_CLIENT_CONNECTED, calls := [] }
      "abc" (by decide)).2.2.1 rfl rfl,
   (pinipfshash_rejects_malformed_hash samplePinExternals
      { fIPFS := true, globalIpfsState := IPFS_STATE.DAEMON_CLIENT_CONNECTED, calls := [] }
      "abc" (by decide)).2.1⟩

/-- C12 (data operations do not move the lifecycle state). For every request
and every starting state, `addipfsdata`, `pinipfshash` and `getipfsnodestatus`
leave `globalIpfsState` as it was, whether they return or throw. -/
theorem ipfs_data_operations_keep_state (ext : IpfsExternals) (pext : PinExternals)
    (IPFSStateToString : IPFS_STATE → String) (request : JSONRPCRequest) (w : IpfsWorld) :
    (addipfsdata ext request w).2.globalIpfsState = w.globalIpfsState ∧
    (pinipfshash pext request w).2.globalIpfsState = w.globalIpfsState ∧
    (getipfsnodestatus IPFSStateToString request w).2.globalIpfsState =
      w.globalIpfsState := by
  refine ⟨?_, ?_, ?_⟩
  · unfold addipfsdata
    repeat' split
    all_goals try dsimp only
    all_goals repeat' split
    all_goals rfl
  · unfold pinipfshash
    repeat' split
    all_goals try dsimp only
    all_goals repeat' split
    all_goals rfl
  · unfold getipfsnodestatus
    split <;> rfl

/-- C18 (start is a no-op when already running). Called while the state is
`STARTING` or `DAEMON_CLIENT_CONNECTED`, `startipfsnode` launches nothing and
leaves the process state as it was; from `NOT_RUNNING` or `ERROR` it launches
the daemon and moves the state to `STARTING`; and it changes the state from no
other state. -/
theorem startipfsnode_noop_when_running (w : IpfsWorld) :
    ((w.globalIpfsState = IPFS_STATE.STARTING ∨
        w.globalIpfsState = IPFS_STATE.DAEMON_CLIENT_CONNECTED) →
      (startipfsnode emptyRequest w).2 = w) ∧
    ((w.globalIpfsState = IPFS_STATE.NOT_RUNNING ∨
        ∃ reason, w.globalIpfsState = IPFS_STATE.ERROR reason) →
      (startipfsnode emptyRequest w).2.globalIpfsState = IPFS_STATE.STARTING ∧
      (startipfsnode emptyRequest w).2.calls = w.calls ++ [ExternalCall.LaunchDaemon]) ∧
    ((startipfsnode emptyRequest w).2.globalIpfsState ≠ w.globalIpfsState →
      w.globalIpfsState = IPFS_STATE.NOT_RUNNING ∨
        ∃ reason, w.globalIpfsState = IPFS_STATE.ERROR reason) := by
  have hrun : (startipfsnode emptyRequest w).2 = StartUpLocalIpfsNode w := rfl
  rw [hrun]
  unfold StartUpLocalIpfsNode
  cases hs : w.globalIpfsState <;> simp [hs]

/-! ## Further claims on the message merge -/

section MessageClaimsMore

variable {OutPoint : Type} [LinearOrder OutPoint]

/-- C14, as stated, fails: output reference 1 has an entry in the orphan map
and one in the add map; the view shows the add-map record, which is `READ`. -/
theorem viewallmessages_orphan_status_counterexample :
    mergedMessages ([] : List (CMessage Nat))
        [(1, { out := 1, strName := "CHAN!", ipfsHash := "hashA", time := 0, nExpiredTime := 0,
               status := MessageStatus.UNREAD, nBlockHeight := 10 })]
        []
        [(1, { out := 1, strName := "CHAN!", ipfsHash := "hashA", time := 0, nExpiredTime := 0,
               status := MessageStatus.READ, nBlockHeight := 10 })] =
      [{ out := 1, strName := "CHAN!", ipfsHash := "hashA", time := 0, nExpiredTime := 0,
         status := MessageStatus.READ, nBlockHeight := 10 }] ∧
    MessageStatus.READ ≠ MessageStatus.ORPHAN := by
  decide

/-- C14 (orphaned entries are reported as orphan), amended. For every loaded
set and dirty caches, and every output reference that is the output reference
of an orphan-map record and not that of an add-map record, every record of
the merged set with that output reference has status `ORPHAN`, whatever status
is stored for it in the loaded set or in the orphan map. -/
theorem viewallmessages_orphan_status (D : List (CMessage OutPoint))
    (O : List (OutPoint × CMessage OutPoint)) (R : List OutPoint)
    (A : List (OutPoint × CMessage OutPoint)) (hD : IsStdSet CMessage.key D)
    (k : OutPoint) (hO : ∃ p ∈ O, p.2.out = k) (hA : ∀ p ∈ A, p.2.out ≠ k) :
    ∀ m ∈ mergedMessages D O R A, m.out = k → m.status = MessageStatus.ORPHAN := by
  intro m hm hmk
  have hfind := (mem_iff_setFind CMessage.key (mergedMessages_isStdSet D O R A hD) m).1 hm
  rw [setFind_mergedMessages D O R A hD] at hfind
  have hkey : CMessage.key m = k := hmk
  rw [hkey, overlayAt_of_not_mem k _ _ A _ hA] at hfind
  rcases overlayAt_of_exists k (fun p : OutPoint × CMessage OutPoint => p.2.out)
      (fun p => some { p.2 with status := MessageStatus.ORPHAN }) O
      (setFind CMessage.key k D) hO with ⟨p, _, _, hval⟩
  rw [hval] at hfind
  rcases overlayAt_none k id R
      (some ({ p.2 with status := MessageStatus.ORPHAN } : CMessage OutPoint)) with h | h
  · rw [h] at hfind
    rw [← Option.some.inj hfind]
  · rw [h] at hfind
    exact Option.noConfusion hfind

/-- Output reference 1 is loaded as unread and orphaned: the record shown for
it is `ORPHAN`. -/
theorem viewallmessages_orphan_status_witness :
    (mergedMessages
        [({ out := 1, strName := "CHAN!", ipfsHash := "hashA", time := 0, nExpiredTime := 0,
            status := MessageStatus.UNREAD, nBlockHeight := 10 } : CMessage Nat)]
        [(1, { out := 1, strName := "CHAN!", ipfsHash := "hashA", time := 0, nExpiredTime := 0,
               status := MessageStatus.UNREAD, nBlockHeight := 10 })]
        [] []).all
        (fun m => decide (m.out = 1 → m.status = MessageStatus.ORPHAN)) = true :=
  List.all_eq_true.2 (fun m hm => decide_eq_true
    (viewallmessages_orphan_status _ _ [] [] (by decide) 1 (by decide) (by decide) m hm))

/-- C20 (untouched keys pass through). For every loaded set and dirty caches,
and every output reference `k` that is not the output reference of an
orphan-map record, is not in the remove set and is not the output reference of
an add-map record, the records of the merged set with output reference `k` are
those of the loaded set: there is one iff the loaded set has one, and it is
that record, field for field. -/
theorem viewallmessages_untouched_keys (D : List (CMessage OutPoint))
    (O : List (OutPoint × CMessage OutPoint)) (R : List OutPoint)
    (A : List (OutPoint × CMessage OutPoint)) (hD : IsStdSet CMessage.key D)
    (k : OutPoint) (hO : ∀ p ∈ O, p.2.out ≠ k) (hR : k ∉ R) (hA : ∀ p ∈ A, p.2.out ≠ k) :
    (mergedMessages D O R A).filter (fun m => decide (m.out = k)) =
      D.filter (fun m => decide (m.out = k)) := by
  have h1 := filter_key_eq_toList CMessage.key (mergedMessages_isStdSet D O R A hD) k
  have h2 := filter_key_eq_toList CMessage.key hD k
  have hfind : setFind CMessage.key k (mergedMessages D O R A) = setFind CMessage.key k D := by
    rw [setFind_mergedMessages D O R A hD, overlayAt_of_not_mem k _ _ A _ hA,
      overlayAt_of_not_mem k id (fun _ => none) R _ (fun b hb hbk => hR (hbk ▸ hb)),
      overlayAt_of_not_mem k _ _ O _ hO]
  rw [hfind] at h1
  exact h1.trans h2.symm

/-- Output reference 1 is loaded; the dirty caches hold references 2, 3 and 4
only: the loaded record of 1 is shown as it is. -/
theorem viewallmessages_untouched_keys_witness :
    (mergedMessages
        [({ out := 1, strName := "CHAN!", ipfsHash := "hashA", time := 0, nExpiredTime := 0,
            status := MessageStatus.UNREAD, nBlockHeight := 10 } : CMessage Nat)]
        [(2, { out := 2, strName := "CHAN!", ipfsHash := "hashB", time := 0, nExpiredTime := 0,
               status := MessageStatus.READ, nBlockHeight := 11 })]
        [3]
        [(4, { out := 4, strName := "CHAN!", ipfsHash := "hashC", time := 0, nExpiredTime := 0,
               status := MessageStatus.READ, nBlockHeight := 12 })]).filter
        (fun m => decide (m.out = 1)) =
      [({ out := 1, strName := "CHAN!", ipfsHash := "hashA", time := 0, nExpiredTime := 0,
          status := MessageStatus.UNREAD, nBlockHeight := 10 } : CMessage Nat)].filter
        (fun m => decide (m.out = 1)) :=
  viewallmessages_untouched_keys _ _ [3] _ (by decide) 1 (by decide) (by decide) (by decide)

end MessageClaimsMore

/-! ## The claims on the message handlers as a whole -/

theorem foldl_push_back_VARR {α : Type} (f : α → UniValue) (l : List α)
    (values : List UniValue) :
    l.foldl (fun arr x => arr.push_back (f x)) (UniValue.VARR values) =
      UniValue.VARR (values ++ l.map f) := by
  induction l generalizing values with
  | nil => simp
  | cons x l ih =>
    rw [List.foldl_cons]
    have : (UniValue.VARR values).push_back (f x) = UniValue.VARR (values ++ [f x]) := rfl
    rw [this, ih, List.map_cons, List.append_assoc, List.singleton_append]

section HandlerClaims

variable {OutPoint : Type} [LinearOrder OutPoint]

/-- What `viewallmessages` does once past its three gates: it loads, merges
and returns the merged set rendered record by record. -/
theorem viewallmessages_enabled (ext : MessageExternals) (w : MessagingWorld OutPoint)
    (hdep : w.messagingDeployed = true) (hmsg : w.fMessaging = true)
    (hcache : w.pMessagesCache = true) (hdb : w.pmessagedb = true) :
    viewallmessages ext emptyRequest w =
      (Except.ok (UniValue.VARR
        ((mergedMessages w.storedMessages w.mapDirtyMessagesOrphaned
          w.setDirtyMessagesRemove w.mapDirtyMessagesAdd).map (renderMessage ext))),
        { w with calls := w.calls ++ [MessagingCall.LoadMessages] }) := by
  unfold viewallmessages emptyRequest mergedMessages
  simp [hdep, hmsg, hcache, hdb, foldl_push_back_VARR]

/-- C15 (snapshots are deterministic and read-only). For every request and
process state, `viewallmessages` and `viewallmessagechannels` leave the
databases and the five dirty caches as they were, and their result depends on
nothing else than the flags, the databases and the dirty caches: a second call,
whatever calls were made in between, returns the same result. -/
theorem viewall_read_only_deterministic (ext : MessageExternals) (request : JSONRPCRequest)
    (w : MessagingWorld OutPoint) :
    ((viewallmessages ext request w).2 =
        { w with calls := (viewallmessages ext request w).2.calls } ∧
      (∀ calls, (viewallmessages ext request { w with calls := calls }).1 =
        (viewallmessages ext request w).1) ∧
      (viewallmessages ext request (viewallmessages ext request w).2).1 =
        (viewallmessages ext request w).1) ∧
    ((viewallmessagechannels request w).2 =
        { w with calls := (viewallmessagechannels request w).2.calls } ∧
      (∀ calls, (viewallmessagechannels request { w with calls := calls }).1 =
        (viewallmessagechannels request w).1) ∧
      (viewallmessagechannels request (viewallmessagechannels request w).2).1 =
        (viewallmessagechannels request w).1) := by
  have hm1 : (viewallmessages ext request w).2 =
      { w with calls := (viewallmessages ext request w).2.calls } := by
    unfold viewallmessages
    split_ifs <;> rfl
  have hm2 : ∀ calls, (viewallmessages ext request { w with calls := calls }).1 =
      (viewallmessages ext request w).1 := by
    intro calls
    unfold viewallmessages
    split_ifs <;> rfl
  have hc1 : (viewallmessagechannels request w).2 =
      { w with calls := (viewallmessagechannels request w).2.calls } := by
    unfold viewallmessagechannels
    split_ifs <;> rfl
  have hc2 : ∀ calls, (viewallmessagechannels request { w with calls := calls }).1 =
      (viewallmessagechannels request w).1 := by
    intro calls
    unfold viewallmessagechannels
    split_ifs <;> rfl
  refine ⟨⟨hm1, hm2, ?_⟩, ⟨hc1, hc2, ?_⟩⟩
  · rw [hm1]
    exact hm2 _
  · rw [hc1]
    exact hc2 _

/-- C16, as stated, fails: the record of output reference 5 is loaded first,
the record of output reference 1 is inserted last, by the add stage; the array
lists the record of 1 first. -/
theorem viewallmessages_order_counterexample :
    (viewallmessages sampleMessageExternals emptyRequest
        { sampleMessagingWorld with
          storedMessages :=
            [{ out := 5, strName := "LOADED!", ipfsHash := "hashA", time := 0,
               nExpiredTime := 0, status := MessageStatus.UNREAD, nBlockHeight := 10 }],
          mapDirtyMessagesAdd :=
            [(1, { out := 1, strName := "ADDED!", ipfsHash := "hashB", time := 0,
                   nExpiredTime := 0, status := MessageStatus.READ, nBlockHeight := 11 })] }).1 =
      Except.ok (UniValue.VARR
        [renderMessage sampleMessageExternals
          ({ out := 1, strName := "ADDED!", ipfsHash := "hashB", time := 0,
             nExpiredTime := 0, status := MessageStatus.READ, nBlockHeight := 11 } :
            CMessage Nat),
         renderMessage sampleMessageExternals
          ({ out := 5, strName := "LOADED!", ipfsHash := "hashA", time := 0,
             nExpiredTime := 0, status := MessageStatus.UNREAD, nBlockHeight := 10 } :
            CMessage Nat)]) ∧
    renderMessage sampleMessageExternals
        ({ out := 1, strName := "ADDED!", ipfsHash := "hashB", time := 0,
           nExpiredTime := 0, status := MessageStatus.READ, nBlockHeight := 11 } :
          CMessage Nat) ≠
      renderMessage sampleMessageExternals
        ({ out := 5, strName := "LOADED!", ipfsHash := "hashA", time := 0,
           nExpiredTime := 0, status := MessageStatus.UNREAD, nBlockHeight := 10 } :
          CMessage Nat) := by
  refine ⟨rfl, ?_⟩
  intro h
  simp [renderMessage, sampleMessageExternals] at h

/-- C16 (order of the message output), amended. The array `viewallmessages`
returns has one object per record of the merged set, listed in the iteration
order of `std::set<CMessage>`: strictly ascending in the output reference,
whatever the order in which the records were inserted. -/
theorem viewallmessages_order (ext : MessageExternals) (w : MessagingWorld OutPoint)
    (hdep : w.messagingDeployed = true) (hmsg : w.fMessaging = true)
    (hcache : w.pMessagesCache = true) (hdb : w.pmessagedb = true)
    (hD : IsStdSet CMessage.key w.storedMessages) :
    (viewallmessages ext emptyRequest w).1 =
      Except.ok (UniValue.VARR
        ((mergedMessages w.storedMessages w.mapDirtyMessagesOrphaned
          w.setDirtyMessagesRemove w.mapDirtyMessagesAdd).map (renderMessage ext))) ∧
    (mergedMessages w.storedMessages w.mapDirtyMessagesOrphaned
      w.setDirtyMessagesRemove w.mapDirtyMessagesAdd).Pairwise (fun a b => a.out < b.out) := by
  rw [viewallmessages_enabled ext w hdep hmsg hcache hdb]
  exact ⟨rfl, mergedMessages_isStdSet _ _ _ _ hD⟩

/-- The loaded record has output reference 5, the added one output reference
1: the merged set, and with it the array, is ascending in the reference. -/
theorem viewallmessages_order_witness :
    (mergedMessages
        [({ out := 5, strName := "LOADED!", ipfsHash := "hashA", time := 0,
            nExpiredTime := 0, status := MessageStatus.UNREAD, nBlockHeight := 10 } :
          CMessage Nat)]
        [] []
        [(1, { out := 1, strName := "ADDED!", ipfsHash := "hashB", time := 0,
               nExpiredTime := 0, status := MessageStatus.READ, nBlockHeight := 11 })]).Pairwise
      (fun a b => a.out < b.out) :=
  (viewallmessages_order sampleMessageExternals
    { sampleMessagingWorld with
      storedMessages :=
        [{ out := 5, strName := "LOADED!", ipfsHash := "hashA", time := 0,
           nExpiredTime := 0, status := MessageStatus.UNREAD, nBlockHeight := 10 }],
      mapDirtyMessagesAdd :=
        [(1, { out := 1, strName := "ADDED!", ipfsHash := "hashB", time := 0,
               nExpiredTime := 0, status := MessageStatus.READ, nBlockHeight := 11 })] }
    rfl rfl rfl rfl (by decide)).2

/-- C17 at the failing input: with messaging deployed and `fMessaging` off,
and likewise with the message cache missing, `viewallmessages` returns the
empty string: the text is pushed onto a string value, which takes no entries.
Nothing is loaded from the database. -/
theorem viewallmessages_disabled_returns_empty_string :
    ((viewallmessages sampleMessageExternals emptyRequest
        { sampleMessagingWorld with fMessaging := false }).1 =
      Except.ok (UniValue.VSTR "") ∧
     (viewallmessages sampleMessageExternals emptyRequest
        { sampleMessagingWorld with fMessaging := false }).2.calls = [] ∧
     UniValue.VSTR "" ≠ UniValue.VSTR msgMessagingDisabled) ∧
    ((viewallmessages sampleMessageExternals emptyRequest
        { sampleMessagingWorld with pMessagesCache := false }).1 =
      Except.ok (UniValue.VSTR "") ∧
     (viewallmessages sampleMessageExternals emptyRequest
        { sampleMessagingWorld with pMessagesCache := false }).2.calls = [] ∧
     UniValue.VSTR "" ≠ UniValue.VSTR msgMessagesProblems) := by
  refine ⟨⟨rfl, rfl, ?_⟩, ⟨rfl, rfl, ?_⟩⟩
  · intro h
    injection h with h
    revert h
    unfold msgMessagingDisabled
    decide
  · intro h
    injection h with h
    revert h
    unfold msgMessagesProblems
    decide

end HandlerClaims

/-! ## The claim on the subscription handlers -/

/-- What the two subscription handlers do with a request that carries a
channel name, once past their gates. -/
theorem subscribetochannel_channelRequest {OutPoint : Type} (ext : ChannelExternals)
    (w : MessagingWorld OutPoint) (name : String)
    (hdep : w.messagingDeployed = true) (hmsg : w.fMessaging = true)
    (hcache : w.pMessageSubscribedChannelsCache = true) (hdb : w.pmessagechanneldb = true) :
    subscribetochannel ext (channelRequest name) w =
      if (ext.IsAssetNameValid name).1 = false then
        (Except.error (RpcException.JSONRPCError RPCErrorCode.RPC_INVALID_PARAMETER
          msgChannelNameNotValid), w)
      else if (ext.IsAssetNameValid name).2 ≠ AssetType.OWNER ∧
          (ext.IsAssetNameValid name).2 ≠ AssetType.MSGCHANNEL then
        (Except.error (RpcException.JSONRPCError RPCErrorCode.RPC_INVALID_PARAMETER
          msgChannelNameWrongType), w)
      else
        (Except.ok UniValue.VNULL,
          { w with calls := w.calls ++ [MessagingCall.AddChannel name] }) := by
  unfold subscribetochannel channelRequest
  simp [hdep, hmsg, hcache, hdb, UniValue.get_str]

theorem unsubscribefromchannel_channelRequest {OutPoint : Type} (ext : ChannelExternals)
    (w : MessagingWorld OutPoint) (name : String)
    (hdep : w.messagingDeployed = true) (hmsg : w.fMessaging = true)
    (hcache : w.pMessageSubscribedChannelsCache = true) (hdb : w.pmessagechanneldb = true) :
    unsubscribefromchannel ext (channelRequest name) w =
      if (ext.IsAssetNameValid name).1 = false then
        (Except.error (RpcException.JSONRPCError RPCErrorCode.RPC_INVALID_PARAMETER
          msgChannelNameNotValid), w)
      else if (ext.IsAssetNameValid name).2 ≠ AssetType.OWNER ∧
          (ext.IsAssetNameValid name).2 ≠ AssetType.MSGCHANNEL then
        (Except.error (RpcException.JSONRPCError RPCErrorCode.RPC_INVALID_PARAMETER
          msgChannelNameWrongType), w)
      else
        (Except.ok UniValue.VNULL,
          { w with calls := w.calls ++ [MessagingCall.RemoveChannel name] }) := by
  unfold unsubscribefromchannel channelRequest
  simp [hdep, hmsg, hcache, hdb, UniValue.get_str]

/-- C13, as stated, fails: messaging is switched on and the store set up, the
name is a valid owner asset, but messaging is not deployed: the handler throws
its usage text (line 167) and `AddChannel` is not called. -/
theorem subscribetochannel_counterexample :
    sampleChannelExternals.IsAssetNameValid "OWNER!" = (true, AssetType.OWNER) ∧
    (subscribetochannel sampleChannelExternals (channelRequest "OWNER!")
        { sampleMessagingWorld with messagingDeployed := false }).2.calls = [] ∧
    (subscribetochannel sampleChannelExternals (channelRequest "OWNER!")
        { sampleMessagingWorld with messagingDeployed := false }).1 =
      Except.error (RpcException.help "subscribetochannel") := by
  refine ⟨by decide, rfl, rfl⟩

/-- C13 (subscribe validates before mutating), amended. With messaging
deployed and switched on and the channel store set up, for every channel name
`subscribetochannel` calls `AddChannel(name)` if and only if
`IsAssetNameValid` accepts the name with asset type `OWNER` or `MSGCHANNEL`;
otherwise it throws `RPC_INVALID_PARAMETER` and makes no call.
`unsubscribefromchannel` does the same with `RemoveChannel`. -/
theorem subscribe_validates_before_mutating {OutPoint : Type} (ext : ChannelExternals)
    (w : MessagingWorld OutPoint) (name : String)
    (hdep : w.messagingDeployed = true) (hmsg : w.fMessaging = true)
    (hcache : w.pMessageSubscribedChannelsCache = true) (hdb : w.pmessagechanneldb = true) :
    (((subscribetochannel ext (channelRequest name) w).2.calls =
          w.calls ++ [MessagingCall.AddChannel name] ↔
        ((ext.IsAssetNameValid name).1 = true ∧
          ((ext.IsAssetNameValid name).2 = AssetType.OWNER ∨
            (ext.IsAssetNameValid name).2 = AssetType.MSGCHANNEL))) ∧
      (¬ ((ext.IsAssetNameValid name).1 = true ∧
          ((ext.IsAssetNameValid name).2 = AssetType.OWNER ∨
            (ext.IsAssetNameValid name).2 = AssetType.MSGCHANNEL)) →
        (subscribetochannel ext (channelRequest name) w).2.calls = w.calls ∧
        ∃ message, (subscribetochannel ext (channelRequest name) w).1 =
          Except.error (RpcException.JSONRPCError RPCErrorCode.RPC_INVALID_PARAMETER
            message))) ∧
    (((unsubscribefromchannel ext (channelRequest name) w).2.calls =
          w.calls ++ [MessagingCall.RemoveChannel name] ↔
        ((ext.IsAssetNameValid name).1 = true ∧
          ((ext.IsAssetNameValid name).2 = AssetType.OWNER ∨
            (ext.IsAssetNameValid name).2 = AssetType.MSGCHANNEL))) ∧
      (¬ ((ext.IsAssetNameValid name).1 = true ∧
          ((ext.IsAssetNameValid name).2 = AssetType.OWNER ∨
            (ext.IsAssetNameValid name).2 = AssetType.MSGCHANNEL)) →
        (unsubscribefromchannel ext (channelRequest name) w).2.calls = w.calls ∧
        ∃ message, (unsubscribefromchannel ext (channelRequest name) w).1 =
          Except.error (RpcException.JSONRPCError RPCErrorCode.RPC_INVALID_PARAMETER
            message))) := by
  rw [subscribetochannel_channelRequest ext w name hdep hmsg hcache hdb,
    unsubscribefromchannel_channelRequest ext w name hdep hmsg hcache hdb]
  cases hv : (ext.IsAssetNameValid name).1
  · simp
  · by_cases ho : (ext.IsAssetNameValid name).2 = AssetType.OWNER
    · simp [ho]
    · by_cases hc : (ext.IsAssetNameValid name).2 = AssetType.MSGCHANNEL
      · simp [hc]
      · simp [ho, hc]

/-- With messaging deployed and switched on and the store set up, subscribing
to the owner channel `OWNER!` calls `AddChannel`. -/
theorem subscribe_validates_before_mutating_witness :
    (subscribetochannel sampleChannelExternals (channelRequest "OWNER!")
        sampleMessagingWorld).2.calls = [] ++ [MessagingCall.AddChannel "OWNER!"] :=
  (subscribe_validates_before_mutating sampleChannelExternals sampleMessagingWorld "OWNER!"
    rfl rfl rfl rfl).1.1.2 ⟨by decide, Or.inl (by decide)⟩

/-! ## The key set and the size of the merged message set -/

section KeySet

variable {α κ : Type} [LinearOrder κ] (key : α → κ)

theorem mem_map_key_iff_setFind (k : κ) (s : List α) :
    k ∈ s.map key ↔ setFind key k s ≠ none := by
  induction s with
  | nil => simp [setFind]
  | cons y ys ih =>
    rw [List.map_cons, List.mem_cons, ih, setFind_cons]
    by_cases hy : key y = k
    · simp [hy]
    · have hk : ¬ k = key y := fun h => hy h.symm
      simp [hy, hk]

theorem length_setInsert_le (x : α) (s : List α) :
    (setInsert key x s).length ≤ s.length + 1 := by
  induction s with
  | nil => simp [setInsert]
  | cons y ys ih =>
    unfold setInsert
    split_ifs
    · simp
    · simpa using ih
    · simp

theorem length_setErase_le (x : α) (s : List α) :
    (setErase key x s).length ≤ s.length :=
  List.length_filter_le _ _

theorem length_foldl_le {β : Type} (step : List α → β → List α)
    (hstep : ∀ s b, (step s b).length ≤ s.length + 1) (l : List β) (s : List α) :
    (l.foldl step s).length ≤ s.length + l.length := by
  induction l generalizing s with
  | nil => simp
  | cons b l ih =>
    rw [List.foldl_cons, List.length_cons]
    have h1 := ih (step s b)
    have h2 := hstep s b
    omega

end KeySet

section KeySetClaim

variable {OutPoint : Type} [LinearOrder OutPoint]

theorem length_orphanStep_le (s : List (CMessage OutPoint))
    (p : OutPoint × CMessage OutPoint) : (orphanStep s p).length ≤ s.length + 1 := by
  rw [orphanStep_eq]
  have h1 := length_setInsert_le CMessage.key
    ({ p.2 with status := MessageStatus.ORPHAN } : CMessage OutPoint)
    (setErase CMessage.key { p.2 with status := MessageStatus.ORPHAN } s)
  have h2 := length_setErase_le CMessage.key
    ({ p.2 with status := MessageStatus.ORPHAN } : CMessage OutPoint) s
  omega

theorem length_removeStep_le (s : List (CMessage OutPoint)) (out : OutPoint) :
    (removeStep s out).length ≤ s.length :=
  length_setErase_le CMessage.key _ s

theorem length_addStep_le (s : List (CMessage OutPoint))
    (p : OutPoint × CMessage OutPoint) : (addStep s p).length ≤ s.length + 1 := by
  unfold addStep
  dsimp only
  have h1 := length_setInsert_le CMessage.key p.2 (setErase CMessage.key p.2 s)
  have h2 := length_setErase_le CMessage.key p.2 s
  omega

theorem length_foldl_removeStep_le (R : List OutPoint) (s : List (CMessage OutPoint)) :
    (R.foldl removeStep s).length ≤ s.length := by
  induction R generalizing s with
  | nil => simp
  | cons r R ih =>
    rw [List.foldl_cons]
    exact le_trans (ih _) (length_removeStep_le s r)

/-- C22 (key set of the merged message view). For every loaded set `D`,
orphan map `O`, remove set `R` and add map `A`, an output reference is that of
a record of the merged set if and only if it is in
`((keys D ∪ keys O) minus R) ∪ keys A`, the keys of `O` and `A` being the
output references of the records they hold; and the merged set has at most
`|D| + |O| + |A|` records. -/
theorem viewallmessages_key_set (D : List (CMessage OutPoint))
    (O : List (OutPoint × CMessage OutPoint)) (R : List OutPoint)
    (A : List (OutPoint × CMessage OutPoint)) (hD : IsStdSet CMessage.key D) :
    (∀ k, k ∈ (mergedMessages D O R A).map (fun m => m.out) ↔
      ((k ∈ D.map (fun m => m.out) ∨ k ∈ O.map (fun p => p.2.out)) ∧ k ∉ R) ∨
        k ∈ A.map (fun p => p.2.out)) ∧
    (mergedMessages D O R A).length ≤ D.length + O.length + A.length := by
  constructor
  · intro k
    have hview := mem_map_key_iff_setFind CMessage.key k (mergedMessages D O R A)
    have hload := mem_map_key_iff_setFind CMessage.key k D
    have hview2 : k ∈ (mergedMessages D O R A).map (fun m => m.out) ↔
        setFind CMessage.key k (mergedMessages D O R A) ≠ none := hview
    have hload2 : k ∈ D.map (fun m => m.out) ↔ setFind CMessage.key k D ≠ none := hload
    rw [hview2, hload2, setFind_mergedMessages D O R A hD]
    by_cases hA : ∃ p ∈ A, p.2.out = k
    · rcases overlayAt_of_exists k (fun p : OutPoint × CMessage OutPoint => p.2.out)
        (fun p => some p.2) A
        (overlayAt k id (fun _ => none) R
          (overlayAt k (fun p : OutPoint × CMessage OutPoint => p.2.out)
            (fun p => some { p.2 with status := MessageStatus.ORPHAN }) O
            (setFind CMessage.key k D))) hA with ⟨p, _, _, hval⟩
      rw [hval]
      have hmem : k ∈ A.map (fun p => p.2.out) := List.mem_map.2 hA
      simp [hmem]
    · have hA2 : ∀ p ∈ A, p.2.out ≠ k := fun p hp hpk => hA ⟨p, hp, hpk⟩
      have hmem : k ∉ A.map (fun p => p.2.out) := fun h => hA (List.mem_map.1 h)
      rw [overlayAt_of_not_mem k _ _ A _ hA2]
      by_cases hR : k ∈ R
      · rw [overlayAt_of_mem k id (fun _ => none) R _ none ⟨k, hR, rfl⟩ (fun _ _ _ => rfl)]
        simp [hR, hmem]
      · rw [overlayAt_of_not_mem k id (fun _ => none) R _ (fun b hb hbk => hR (hbk ▸ hb))]
        by_cases hO : ∃ p ∈ O, p.2.out = k
        · rcases overlayAt_of_exists k (fun p : OutPoint × CMessage OutPoint => p.2.out)
            (fun p => some { p.2 with status := MessageStatus.ORPHAN }) O
            (setFind CMessage.key k D) hO with ⟨p, _, _, hval⟩
          rw [hval]
          have hmemO : k ∈ O.map (fun p => p.2.out) := List.mem_map.2 hO
          simp [hmemO, hR]
        · have hO2 : ∀ p ∈ O, p.2.out ≠ k := fun p hp hpk => hO ⟨p, hp, hpk⟩
          have hmemO : k ∉ O.map (fun p => p.2.out) := fun h => hO (List.mem_map.1 h)
          rw [overlayAt_of_not_mem k _ _ O _ hO2]
          simp [hmemO, hR, hmem]
  · unfold mergedMessages
    dsimp only
    have h1 := length_foldl_le addStep length_addStep_le A
      (R.foldl removeStep (O.foldl orphanStep D))
    have h2 := length_foldl_removeStep_le R (O.foldl orphanStep D)
    have h3 := length_foldl_le orphanStep length_orphanStep_le O D
    omega

/-- Reference 1 is loaded and removed, 2 is orphaned, 3 is added: the view
holds at most three records. -/
theorem viewallmessages_key_set_witness :
    (mergedMessages
        [({ out := 1, strName := "CHAN!", ipfsHash := "hashA", time := 0, nExpiredTime := 0,
            status := MessageStatus.UNREAD, nBlockHeight := 10 } : CMessage Nat)]
        [(2, { out := 2, strName := "CHAN!", ipfsHash := "hashB", time := 0, nExpiredTime := 0,
               status := MessageStatus.READ, nBlockHeight := 11 })]
        [1]
        [(3, { out := 3, strName := "CHAN!", ipfsHash := "hashC", time := 0, nExpiredTime := 0,
               status := MessageStatus.READ, nBlockHeight := 12 })]).length ≤ 1 + 1 + 1 :=
  (viewallmessages_key_set _ _ [1] _ (by decide)).2

end KeySetClaim

/-! ## Rendering, order of the submit checks, order of the channel output -/

/-- What one rendered object holds: the five fields of the record, and
`Expire Time` exactly when the expiry time is non-zero. -/
theorem renderMessage_fields {OutPoint : Type} (ext : MessageExternals)
    (m : CMessage OutPoint) :
    ∃ entries, renderMessage ext m = UniValue.VOBJ entries ∧
      ("Asset Name", UniValue.VSTR m.strName) ∈ entries ∧
      ("Message", UniValue.VSTR (ext.EncodeIPFS m.ipfsHash)) ∈ entries ∧
      ("Time", UniValue.VSTR (ext.DateTimeStrFormat "%Y-%m-%d %H:%M:%S" m.time)) ∈ entries ∧
      ("Block Height", UniValue.VNUM m.nBlockHeight) ∈ entries ∧
      ("Status", UniValue.VSTR (ext.MessageStatusToString m.status)) ∈ entries ∧
      ((∃ v, ("Expire Time", v) ∈ entries) ↔ m.nExpiredTime ≠ 0) ∧
      (m.nExpiredTime ≠ 0 →
        ("Expire Time",
          UniValue.VSTR (ext.DateTimeStrFormat "%Y-%m-%d %H:%M:%S" m.nExpiredTime)) ∈
            entries) := by
  unfold renderMessage
  by_cases hexp : m.nExpiredTime = 0
  · refine ⟨_, rfl, ?_⟩
    simp [hexp]
  · refine ⟨_, rfl, ?_⟩
    simp [hexp]

section RenderingClaim

variable {OutPoint : Type} [LinearOrder OutPoint]

/-- C21 (rendering of the message view). Past its gates, `viewallmessages`
returns an array with exactly one object per record of the merged set, in set
order; the object of a record carries its asset name, its encoded hash, its
formatted time, its block height and its status string, and it has an
`Expire Time` entry (the formatted expiry time) if and only if the expiry time
of the record is non-zero. -/
theorem viewallmessages_rendering (ext : MessageExternals) (w : MessagingWorld OutPoint)
    (hdep : w.messagingDeployed = true) (hmsg : w.fMessaging = true)
    (hcache : w.pMessagesCache = true) (hdb : w.pmessagedb = true) :
    ∃ objects, (viewallmessages ext emptyRequest w).1 = Except.ok (UniValue.VARR objects) ∧
      objects.length =
        (mergedMessages w.storedMessages w.mapDirtyMessagesOrphaned
          w.setDirtyMessagesRemove w.mapDirtyMessagesAdd).length ∧
      List.Forall₂
        (fun (m : CMessage OutPoint) (object : UniValue) =>
          ∃ entries, object = UniValue.VOBJ entries ∧
            ("Asset Name", UniValue.VSTR m.strName) ∈ entries ∧
            ("Message", UniValue.VSTR (ext.EncodeIPFS m.ipfsHash)) ∈ entries ∧
            ("Time", UniValue.VSTR (ext.DateTimeStrFormat "%Y-%m-%d %H:%M:%S" m.time)) ∈
              entries ∧
            ("Block Height", UniValue.VNUM m.nBlockHeight) ∈ entries ∧
            ("Status", UniValue.VSTR (ext.MessageStatusToString m.status)) ∈ entries ∧
            ((∃ v, ("Expire Time", v) ∈ entries) ↔ m.nExpiredTime ≠ 0) ∧
            (m.nExpiredTime ≠ 0 →
              ("Expire Time",
                UniValue.VSTR (ext.DateTimeStrFormat "%Y-%m-%d %H:%M:%S" m.nExpiredTime)) ∈
                  entries))
        (mergedMessages w.storedMessages w.mapDirtyMessagesOrphaned
          w.setDirtyMessagesRemove w.mapDirtyMessagesAdd)
        objects := by
  rw [viewallmessages_enabled ext w hdep hmsg hcache hdb]
  refine ⟨_, rfl, List.length_map _ _, ?_⟩
  rw [List.forall₂_map_right_iff]
  apply List.forall₂_same.2
  intro m _
  exact renderMessage_fields ext m

/-- One record is loaded, with an expiry time: the array has one object. -/
theorem viewallmessages_rendering_witness :
    ∃ objects,
      (viewallmessages sampleMessageExternals emptyRequest
        { sampleMessagingWorld with
          storedMessages :=
            [{ out := 1, strName := "CHAN!", ipfsHash := "hashA", time := 0,
               nExpiredTime := 7, status := MessageStatus.UNREAD, nBlockHeight := 10 }] }).1 =
        Except.ok (UniValue.VARR objects) ∧
      objects.length = 1 :=
  (viewallmessages_rendering sampleMessageExternals
    { sampleMessagingWorld with
      storedMessages :=
        [{ out := 1, strName := "CHAN!", ipfsHash := "hashA", time := 0,
           nExpiredTime := 7, status := MessageStatus.UNREAD, nBlockHeight := 10 }] }
    rfl rfl rfl rfl).elim (fun objects h => ⟨objects, h.1, h.2.1.trans rfl⟩)

end RenderingClaim

/-- C23 (fixed order of the submit checks). In `addipfsdata` the checks fire
in the order feature enabled, daemon connected, payload size, external call,
and the first one that fails decides the error: with `fIPFS` off the error is
the "turned off" one whatever the state and the payload; with `fIPFS` on and
the daemon not connected it is the "not running" one, also for an oversized
payload; with both passed an oversized payload gets the size error; and only
then the verdict of `AddIpfsData` decides. No check that comes after the
failing one is reached: the external call is made only when all three checks
pass. -/
theorem addipfsdata_check_order (ext : IpfsExternals) (w : IpfsWorld) (data : String) :
    (w.fIPFS = false →
      addipfsdata ext (submitRequest data) w =
        (Except.error (RpcException.JSONRPCError RPCErrorCode.RPC_INVALID_REQUEST
          (ext.translate msgIpfsTurnedOff)), w)) ∧
    (w.fIPFS = true → w.globalIpfsState ≠ IPFS_STATE.DAEMON_CLIENT_CONNECTED →
      addipfsdata ext (submitRequest data) w =
        (Except.error (RpcException.JSONRPCError RPCErrorCode.RPC_INVALID_REQUEST
          (ext.translate msgIpfsNotRunning)), w)) ∧
    (w.fIPFS = true → w.globalIpfsState = IPFS_STATE.DAEMON_CLIENT_CONNECTED →
      data.utf8ByteSize > ext.MAX_IPFS_DATA_SIZE →
      addipfsdata ext (submitRequest data) w =
        (Except.error (RpcException.JSONRPCError RPCErrorCode.RPC_INVALID_REQUEST
          (ext.translate msgIpfsDataTooLarge)), w)) ∧
    (w.fIPFS = true → w.globalIpfsState = IPFS_STATE.DAEMON_CLIENT_CONNECTED →
      data.utf8ByteSize ≤ ext.MAX_IPFS_DATA_SIZE → (ext.AddIpfsData data).1 = false →
      addipfsdata ext (submitRequest data) w =
        (Except.error (RpcException.JSONRPCError RPCErrorCode.RPC_INTERNAL_ERROR
          (ext.translate msgIpfsAddFailed)),
          { w with calls := w.calls ++ [ExternalCall.AddIpfsData data] })) ∧
    (w.fIPFS = true → w.globalIpfsState = IPFS_STATE.DAEMON_CLIENT_CONNECTED →
      data.utf8ByteSize ≤ ext.MAX_IPFS_DATA_SIZE → (ext.AddIpfsData data).1 = true →
      addipfsdata ext (submitRequest data) w =
        (Except.ok (UniValue.VSTR (ext.AddIpfsData data).2.ipfsHash),
          { w with calls := w.calls ++ [ExternalCall.AddIpfsData data] })) := by
  rw [addipfsdata_submitRequest]
  refine ⟨?_, ?_, ?_, ?_, ?_⟩
  · intro hf
    simp [hf]
  · intro hf hs
    simp [hf, hs]
  · intro hf hs hsz
    simp [hf, hs, hsz]
  · intro hf hs hsz ha
    have hsz2 : ¬ data.utf8ByteSize > ext.MAX_IPFS_DATA_SIZE := not_lt.2 hsz
    simp [hf, hs, hsz2, ha]
  · intro hf hs hsz ha
    have hsz2 : ¬ data.utf8ByteSize > ext.MAX_IPFS_DATA_SIZE := not_lt.2 hsz
    simp [hf, hs, hsz2, ha]

/-! ## The order of the channel output -/

theorem mergedChannels_isStdSet (D R A : List String) (hD : IsStdSet id D) :
    IsStdSet id (mergedChannels D R A) := by
  unfold mergedChannels
  apply IsStdSet.foldl id (fun setChannels name => setInsert id name setChannels)
    (fun s b hs => hs.setInsert id b)
  exact IsStdSet.foldl id (fun setChannels name => setErase id name setChannels)
    (fun s b hs => hs.setErase id b) R D hD

/-- What `viewallmessagechannels` does once past its three gates: it loads,
merges and returns the merged names, in set order. -/
theorem viewallmessagechannels_enabled {OutPoint : Type} (w : MessagingWorld OutPoint)
    (hdep : w.messagingDeployed = true) (hmsg : w.fMessaging = true)
    (hcache : w.pMessageSubscribedChannelsCache = true) (hdb : w.pmessagechanneldb = true) :
    viewallmessagechannels emptyRequest w =
      (Except.ok (UniValue.VARR
        ((viewallmessagechannelsNames w.storedChannels w.setDirtyChannelsRemove
          w.setDirtyChannelsAdd).map UniValue.VSTR)),
        { w with calls := w.calls ++ [MessagingCall.LoadMyMessageChannels] }) := by
  rw [viewallmessagechannelsNames_eq]
  unfold viewallmessagechannels emptyRequest mergedChannels
  simp [hdep, hmsg, hcache, hdb, foldl_push_back_VARR]

/-- C24 (channel output is sorted and duplicate-free). For every loaded
channel set and dirty sets, the array `viewallmessagechannels` returns lists
the merged names in strictly ascending order of string comparison, so no name
appears twice. -/
theorem viewallmessagechannels_sorted {OutPoint : Type} (w : MessagingWorld OutPoint)
    (hdep : w.messagingDeployed = true) (hmsg : w.fMessaging = true)
    (hcache : w.pMessageSubscribedChannelsCache = true) (hdb : w.pmessagechanneldb = true)
    (hD : IsStdSet id w.storedChannels) :
    (viewallmessagechannels emptyRequest w).1 =
      Except.ok (UniValue.VARR
        ((viewallmessagechannelsNames w.storedChannels w.setDirtyChannelsRemove
          w.setDirtyChannelsAdd).map UniValue.VSTR)) ∧
    (viewallmessagechannelsNames w.storedChannels w.setDirtyChannelsRemove
      w.setDirtyChannelsAdd).Pairwise (fun a b => a < b) ∧
    (viewallmessagechannelsNames w.storedChannels w.setDirtyChannelsRemove
      w.setDirtyChannelsAdd).Nodup := by
  rw [viewallmessagechannels_enabled w hdep hmsg hcache hdb]
  have hset := mergedChannels_isStdSet w.storedChannels w.setDirtyChannelsRemove
    w.setDirtyChannelsAdd hD
  rw [← viewallmessagechannelsNames_eq] at hset
  exact ⟨rfl, hset, hset.nodup id⟩

/-- Scenario C of the spec: `A!` and `B~1` are stored, `A!` is both in the
remove set and in the add set; the names returned are in ascending order. -/
theorem viewallmessagechannels_sorted_witness :
    (viewallmessagechannelsNames ["A!", "B~1"] ["A!"] ["A!"]).Pairwise (fun a b => a < b) :=
  (viewallmessagechannels_sorted
    { sampleMessagingWorld with
      storedChannels := ["A!", "B~1"], setDirtyChannelsRemove := ["A!"],
      setDirtyChannelsAdd := ["A!"] }
    rfl rfl rfl rfl
    (List.pairwise_pair.2 (String.lt_iff_toList_lt.2 (by decide)))).2.1

end Ravencoin
